import Mathlib

/-!
# three-mesh-merger: shallow embedding and verification

A shallow embedding of the core of the `three-mesh-merger` repository
(geometry merge, texture-atlas engine, decal projection/baking) in Lean 4,
with theorems settling the specification's claims about it.

Numbers are modelled by exact rationals (`ℚ`): all arithmetic the verified
code paths perform is field arithmetic and comparisons, which over `ℚ`
agrees with the IEEE-754 computation whenever the latter is exact.  The one
systematic translation: comparisons of Euclidean distances
(`point.distanceTo(c1) < point.distanceTo(c2)` in the source) are modelled
by comparisons of *squared* distances, which order identically because the
square root is strictly monotone on nonnegatives.

Where the IEEE computation genuinely leaves the rationals — the decal
projector's division by a zero barycentric denominator on degenerate
triangles, which produces NaN weights — the embedding carries the special
value explicitly: `Option ℚ` with `none` standing for NaN
(`getBarycentricCoordsN`, `findClosestTriangleUVN`), alongside the
total-division model used where only non-degenerate triangles matter.
-/

/-- `THREE.Vector3` with rational coordinates. -/
structure Vec3 where
  x : ℚ
  y : ℚ
  z : ℚ
deriving Repr, DecidableEq

/-- `THREE.Vector2` with rational coordinates. -/
structure Vec2 where
  x : ℚ
  y : ℚ
deriving Repr, DecidableEq

def Vec3.add (a b : Vec3) : Vec3 := ⟨a.x + b.x, a.y + b.y, a.z + b.z⟩

def Vec3.sub (a b : Vec3) : Vec3 := ⟨a.x - b.x, a.y - b.y, a.z - b.z⟩

def Vec3.dot (a b : Vec3) : ℚ := a.x * b.x + a.y * b.y + a.z * b.z

def Vec3.scale (a : Vec3) (s : ℚ) : Vec3 := ⟨a.x * s, a.y * s, a.z * s⟩

def Vec3.divideScalar (a : Vec3) (s : ℚ) : Vec3 := ⟨a.x / s, a.y / s, a.z / s⟩

/-- Squared Euclidean distance; stands for `a.distanceTo b` in comparisons
(the square root is strictly monotone, so `<` on squared distances agrees
with `<` on distances). -/
def distSq (a b : Vec3) : ℚ :=
  (a.x - b.x) ^ 2 + (a.y - b.y) ^ 2 + (a.z - b.z) ^ 2

/-- `Math.min` on rationals (ties irrelevant over a linear order). -/
def jsMin (a b : ℚ) : ℚ := if a ≤ b then a else b

/-- `Math.max` on rationals. -/
def jsMax (a b : ℚ) : ℚ := if a ≤ b then b else a

/-- `Math.max(lo, Math.min(hi, value))`, the clamping idiom of the source
(`utils/mathUtils.ts` `clamp` and the inlined uses). -/
def clamp (value lo hi : ℚ) : ℚ := jsMax lo (jsMin hi value)

/-- A `THREE.BufferGeometry` restricted to the attributes the repository
reads: `position` (always present on real geometries), optional `normal`
and `uv` attributes, and an optional index. -/
structure Geometry where
  positions : List Vec3
  normals : Option (List Vec3)
  uvs : Option (List Vec2)
  index : Option (List ℕ)
deriving Repr, DecidableEq

/-- `Vector3.fromBufferAttribute` at index `i` (claims only invoke it in
range, where the default is irrelevant). -/
def vAt (l : List Vec3) (i : ℕ) : Vec3 := l.getD i ⟨0, 0, 0⟩

/-- `Vector2.fromBufferAttribute` at index `i`. -/
def uvAt (l : List Vec2) (i : ℕ) : Vec2 := l.getD i ⟨0, 0⟩

/-- Result type of the decal projector (`UVProjection` in `types.ts`). -/
structure UVProjection where
  u : ℚ
  v : ℚ
  valid : Bool
deriving Repr, DecidableEq

/-- `DecalBaker.getBarycentricCoords` (DecalBaker.ts): barycentric
coordinates of `point` with respect to the triangle `v0 v1 v2`, computed by
the dot-product formula, clamped into `[0,1]` componentwise and
renormalized to sum to 1.  Returned in the source's order
`(clampedW/sum, clampedU/sum, clampedV/sum)`, i.e. the weights of
`v0, v1, v2` respectively. -/
def getBarycentricCoords (point v0 v1 v2 : Vec3) : Vec3 :=
  let edge0 := v1.sub v0
  let edge1 := v2.sub v0
  let v0ToPoint := point.sub v0
  let dot00 := edge0.dot edge0
  let dot01 := edge0.dot edge1
  let dot02 := edge0.dot v0ToPoint
  let dot11 := edge1.dot edge1
  let dot12 := edge1.dot v0ToPoint
  let invDenom := 1 / (dot00 * dot11 - dot01 * dot01)
  let u := (dot11 * dot02 - dot01 * dot12) * invDenom
  let v := (dot00 * dot12 - dot01 * dot02) * invDenom
  let w := 1 - u - v
  let clampedU := clamp u 0 1
  let clampedV := clamp v 0 1
  let clampedW := clamp w 0 1
  let sum := clampedU + clampedV + clampedW
  ⟨clampedW / sum, clampedU / sum, clampedV / sum⟩

/-- Centroid of a triangle: `v0.add(v1).add(v2).divideScalar(3)`. -/
def triangleCenter (v0 v1 v2 : Vec3) : Vec3 :=
  ((v0.add v1).add v2).divideScalar 3

/-- Squared distance from `point` to the centroid of the `i`-th triangle of
a non-indexed position list (vertices `3i, 3i+1, 3i+2`). -/
def centroidDistSq (pos : List Vec3) (point : Vec3) (i : ℕ) : ℚ :=
  distSq point (triangleCenter (vAt pos (i * 3)) (vAt pos (i * 3 + 1)) (vAt pos (i * 3 + 2)))

/-- The UV the loop body of `DecalBaker.findClosestTriangleUV` computes for
the `i`-th triangle: barycentric weights of the input point (via
`getBarycentricCoords`), used to interpolate the triangle's three UV
corners.  Not yet clamped into `[0,1]`; the function result clamps. -/
def triBaryUV (pos : List Vec3) (uv : List Vec2) (point : Vec3) (i : ℕ) : ℚ × ℚ :=
  let v0 := vAt pos (i * 3)
  let v1 := vAt pos (i * 3 + 1)
  let v2 := vAt pos (i * 3 + 2)
  let bary := getBarycentricCoords point v0 v1 v2
  let uv0 := uvAt uv (i * 3)
  let uv1 := uvAt uv (i * 3 + 1)
  let uv2 := uvAt uv (i * 3 + 2)
  (uv0.x * bary.x + uv1.x * bary.y + uv2.x * bary.z,
   uv0.y * bary.x + uv1.y * bary.y + uv2.y * bary.z)

/-- The triangle loop of `DecalBaker.findClosestTriangleUV`.  The state is
`none` while no triangle has been visited (`closestDist = Infinity`,
`found = false` in the source) and `some (closestDistSq, closestU, closestV)`
afterwards. -/
def findLoop (pos : List Vec3) (uv : List Vec2) (point : Vec3) :
    List ℕ → Option (ℚ × ℚ × ℚ) → Option (ℚ × ℚ × ℚ)
  | [], st => st
  | i :: rest, st =>
    let d := centroidDistSq pos point i
    match st with
    | none => findLoop pos uv point rest (some (d, triBaryUV pos uv point i))
    | some (cd, cu, cv) =>
      if d < cd then
        findLoop pos uv point rest (some (d, triBaryUV pos uv point i))
      else
        findLoop pos uv point rest (some (cd, cu, cv))

/-- `DecalBaker.findClosestTriangleUV`: scan all triangles keeping the one
whose centroid is nearest the query point, interpolate its UV corners by the
(clamped, renormalized) barycentric weights of the query point, and clamp
the interpolated result into `[0,1]`. -/
def findClosestTriangleUV (g : Geometry) (point : Vec3) : UVProjection :=
  match g.uvs with
  | none => ⟨0, 0, false⟩
  | some uv =>
    let triCount := g.positions.length / 3
    match findLoop g.positions uv point (List.range triCount) none with
    | none => ⟨clamp 0 0 1, clamp 0 0 1, false⟩
    | some (_, cu, cv) => ⟨clamp cu 0 1, clamp cv 0 1, true⟩

/-- Modelled from the spec: "barycentric coordinates of the *closest point
on that triangle* to the input point".  The closest-point computation is
the standard region-based algorithm (`THREE.Triangle.closestPointToPoint`,
a dependency of the repository, not part of `src/`). -/
def closestPointOnTriangle (p a b c : Vec3) : Vec3 :=
  let ab := b.sub a
  let ac := c.sub a
  let ap := p.sub a
  let d1 := ab.dot ap
  let d2 := ac.dot ap
  if d1 ≤ 0 ∧ d2 ≤ 0 then a else
  let bp := p.sub b
  let d3 := ab.dot bp
  let d4 := ac.dot bp
  if d3 ≥ 0 ∧ d4 ≤ d3 then b else
  let vc := d1 * d4 - d3 * d2
  if vc ≤ 0 ∧ d1 ≥ 0 ∧ d3 ≤ 0 then a.add (ab.scale (d1 / (d1 - d3))) else
  let cp := p.sub c
  let d5 := ab.dot cp
  let d6 := ac.dot cp
  if d6 ≥ 0 ∧ d5 ≤ d6 then c else
  let vb := d5 * d2 - d1 * d6
  if vb ≤ 0 ∧ d2 ≥ 0 ∧ d6 ≤ 0 then a.add (ac.scale (d2 / (d2 - d6))) else
  let va := d3 * d6 - d5 * d4
  if va ≤ 0 ∧ d4 - d3 ≥ 0 ∧ d5 - d6 ≥ 0 then
    b.add ((c.sub b).scale ((d4 - d3) / ((d4 - d3) + (d5 - d6)))) else
  let denom := 1 / (va + vb + vc)
  (a.add (ab.scale (vb * denom))).add (ac.scale (vc * denom))

/-- The projector as claim C4 states it: same nearest-centroid triangle
selection, but the interpolation weights are the barycentric coordinates of
the *closest point on the winning triangle* to the input point (clamped and
renormalized).  To be compared against `findClosestTriangleUV`, which uses
the input point itself. -/
def triBaryUVClaim (pos : List Vec3) (uv : List Vec2) (point : Vec3) (i : ℕ) : ℚ × ℚ :=
  let v0 := vAt pos (i * 3)
  let v1 := vAt pos (i * 3 + 1)
  let v2 := vAt pos (i * 3 + 2)
  let q := closestPointOnTriangle point v0 v1 v2
  let bary := getBarycentricCoords q v0 v1 v2
  let uv0 := uvAt uv (i * 3)
  let uv1 := uvAt uv (i * 3 + 1)
  let uv2 := uvAt uv (i * 3 + 2)
  (uv0.x * bary.x + uv1.x * bary.y + uv2.x * bary.z,
   uv0.y * bary.x + uv1.y * bary.y + uv2.y * bary.z)

/-- The triangle loop with the claim's interpolation weights. -/
def findLoopClaim (pos : List Vec3) (uv : List Vec2) (point : Vec3) :
    List ℕ → Option (ℚ × ℚ × ℚ) → Option (ℚ × ℚ × ℚ)
  | [], st => st
  | i :: rest, st =>
    let d := centroidDistSq pos point i
    match st with
    | none => findLoopClaim pos uv point rest (some (d, triBaryUVClaim pos uv point i))
    | some (cd, cu, cv) =>
      if d < cd then
        findLoopClaim pos uv point rest (some (d, triBaryUVClaim pos uv point i))
      else
        findLoopClaim pos uv point rest (some (cd, cu, cv))

/-- The full projector as claim C4 states it. -/
def findClosestTriangleUVClaim (g : Geometry) (point : Vec3) : UVProjection :=
  match g.uvs with
  | none => ⟨0, 0, false⟩
  | some uv =>
    let triCount := g.positions.length / 3
    match findLoopClaim g.positions uv point (List.range triCount) none with
    | none => ⟨0, 0, false⟩
    | some (_, cu, cv) => ⟨cu, cv, true⟩

/-- Single right triangle in the z = 0 plane with the identity-like UV
assignment, used to separate the code's projector from the claim's. -/
def exTriGeometry : Geometry :=
  { positions := [⟨0, 0, 0⟩, ⟨1, 0, 0⟩, ⟨0, 1, 0⟩]
    normals := none
    uvs := some [⟨0, 0⟩, ⟨1, 0⟩, ⟨0, 1⟩]
    index := none }

/-- Query point outside the triangle, past the corner `(1,0,0)`. -/
def exPoint : Vec3 := ⟨3, 1, 0⟩

/-- `DecalInstance` (types.ts).  Ids and texture references are opaque
tokens, modelled as naturals; `texture = none` models a decal whose texture
image is unavailable (`decal.texture?.image` falsy). -/
structure DecalInstance where
  id : ℕ
  targetModelId : ℕ
  position : Vec3
  rotation : Vec3
  scale : Vec3
  opacity : ℚ
  uv : Option Vec2
  texture : Option ℕ
deriving Repr, DecidableEq

/-- `Map.get` on an association list in insertion order. -/
def mapGet {α : Type} : List (ℕ × α) → ℕ → Option α
  | [], _ => none
  | (k, v) :: rest, key => if k = key then some v else mapGet rest key

/-- Overwrite the value stored under `key`, leaving other entries alone
(the in-place mutation `decal.opacity = …` on the found entry). -/
def mapModify {α : Type} : List (ℕ × α) → ℕ → (α → α) → List (ℕ × α)
  | [], _, _ => []
  | (k, v) :: rest, key, f =>
    if k = key then (k, f v) :: mapModify rest key f
    else (k, v) :: mapModify rest key f

/-- `DecalManager.updateDecalOpacity` (DecalManager.ts): throw on an
unknown id, otherwise store `Math.max(0, Math.min(1, opacity))`. -/
def updateDecalOpacity (decals : List (ℕ × DecalInstance)) (id : ℕ) (opacity : ℚ) :
    Except String (List (ℕ × DecalInstance)) :=
  match mapGet decals id with
  | none => .error "Decal not found"
  | some _ => .ok (mapModify decals id fun d => { d with opacity := jsMax 0 (jsMin 1 opacity) })

/-- A concrete decal used by witnesses. -/
def exDecal : DecalInstance :=
  { id := 7, targetModelId := 1, position := ⟨0, 0, 0⟩, rotation := ⟨0, 0, 0⟩
    scale := ⟨1, 1, 1⟩, opacity := 1, uv := some ⟨1/2, 1/2⟩, texture := some 5 }

/-- `THREE.Color` with rational channels. -/
structure Color where
  r : ℚ
  g : ℚ
  b : ℚ
deriving Repr, DecidableEq

/-- The slice of `THREE.MeshStandardMaterial` the repository reads and
writes: the albedo texture reference (`map`, an opaque texture id) and the
scalar/color properties handled by `MaterialAtlas.setMaterialProperties`. -/
structure MaterialRec where
  map : Option ℕ
  color : Color
  roughness : ℚ
  metalness : ℚ
  emissive : Color
  emissiveIntensity : ℚ
deriving Repr, DecidableEq

/-- `new THREE.MeshStandardMaterial()` with its three.js default property
values (color `0xffffff`, roughness `1`, metalness `0`, emissive
`0x000000`, emissiveIntensity `1`, no texture). -/
def mkMeshStandardMaterial : MaterialRec :=
  { map := none, color := ⟨1, 1, 1⟩, roughness := 1, metalness := 0
    emissive := ⟨0, 0, 0⟩, emissiveIntensity := 1 }

/-- `MaterialOverrides` (types.ts); the `number | string` color forms are
modelled by the colors they denote. -/
structure MaterialOverrides where
  roughness : Option ℚ
  metalness : Option ℚ
  color : Option Color
  emissive : Option Color
  emissiveIntensity : Option ℚ
deriving Repr, DecidableEq

/-- `MaterialAtlas.setMaterialProperties`: with overrides, apply each
supplied field; without, average roughness, metalness and color across the
source materials (the source averages only those three properties). -/
def setMaterialProperties (target : MaterialRec) (sourceMaterials : List MaterialRec)
    (overrides : Option MaterialOverrides) : MaterialRec :=
  match overrides with
  | some o =>
    let t := target
    let t := match o.roughness with | some r => { t with roughness := r } | none => t
    let t := match o.metalness with | some m => { t with metalness := m } | none => t
    let t := match o.color with | some c => { t with color := c } | none => t
    let t := match o.emissive with | some e => { t with emissive := e } | none => t
    let t := match o.emissiveIntensity with
             | some i => { t with emissiveIntensity := i } | none => t
    t
  | none =>
    let totalRoughness := (sourceMaterials.map (·.roughness)).sum
    let totalMetalness := (sourceMaterials.map (·.metalness)).sum
    let avgColor : Color := ⟨(sourceMaterials.map (·.color.r)).sum,
                             (sourceMaterials.map (·.color.g)).sum,
                             (sourceMaterials.map (·.color.b)).sum⟩
    let count : ℚ := sourceMaterials.length
    { target with
      roughness := totalRoughness / count
      metalness := totalMetalness / count
      color := ⟨avgColor.r / count, avgColor.g / count, avgColor.b / count⟩ }

/-- A source material with a nonzero emissive color and intensity, used to
show the no-override branch does not average emissive properties. -/
def exEmissiveMat : MaterialRec :=
  { map := none, color := ⟨0, 1, 0⟩, roughness := 1/2, metalness := 1/4
    emissive := ⟨1, 0, 0⟩, emissiveIntensity := 3 }

/-- A packed rectangle of `generatePackingLayout`'s output (`PackBox` with
its optional `x`/`y` fields already assigned). -/
structure PackBox where
  x : ℚ
  y : ℚ
  w : ℚ
  h : ℚ
deriving Repr, DecidableEq

/-- The two assignments of the inner UV loop of
`MaterialAtlas.updateUVCoordinates` for triangle `t`: the six flat array
slots `6t … 6t+5` are rewritten, even slots (u components) by
`u * (box.w / atlasSize) + box.x / atlasSize`, odd slots (v components) by
the corresponding `h`/`y` transform.  The flat `Float32Array` is modelled
as a total function from slot index to value. -/
def updTri (box : PackBox) (atlasSize : ℚ) (t : ℕ) (f : ℕ → ℚ) : ℕ → ℚ :=
  fun idx =>
    if 6 * t ≤ idx ∧ idx < 6 * t + 6 then
      if idx % 2 = 0 then f idx * (box.w / atlasSize) + box.x / atlasSize
      else f idx * (box.h / atlasSize) + box.y / atlasSize
    else f idx

/-- `triangleIndices.forEach(…)`: rewrite every triangle of one material. -/
def updateTriangles (box : PackBox) (atlasSize : ℚ) : List ℕ → (ℕ → ℚ) → (ℕ → ℚ)
  | [], f => f
  | t :: rest, f => updateTriangles box atlasSize rest (updTri box atlasSize t f)

/-- `materials.forEach((material, materialIndex) => …)` of
`MaterialAtlas.updateUVCoordinates`: process the material list in order
with its running index, skipping materials absent from the mapping. -/
def updateUVLoop (mapping : ℕ → Option (List ℕ)) (layout : List PackBox) (atlasSize : ℚ) :
    List ℕ → ℕ → (ℕ → ℚ) → (ℕ → ℚ)
  | [], _, f => f
  | m :: rest, i, f =>
    let f' := match mapping m with
      | none => f
      | some tris => updateTriangles (layout.getD i ⟨0, 0, 0, 0⟩) atlasSize tris f
    updateUVLoop mapping layout atlasSize rest (i + 1) f'

/-- `MaterialAtlas.updateUVCoordinates` on the flat UV array. -/
def updateUVCoordinates (materials : List ℕ) (mapping : ℕ → Option (List ℕ))
    (layout : List PackBox) (atlasSize : ℚ) (uvArr : ℕ → ℚ) : ℕ → ℚ :=
  updateUVLoop mapping layout atlasSize materials 0 uvArr

/-- A concrete two-material mapping: material `10` owns triangle `0`,
material `11` owns triangle `1`. -/
def exMapping : ℕ → Option (List ℕ) := fun m =>
  if m = 10 then some [0] else if m = 11 then some [1] else none

/-- `Math.floor` on a rational, as a rational. -/
def jsFloor (q : ℚ) : ℚ := (⌊q⌋ : ℚ)

/-- `image.width || 1`: a zero dimension falls back to `1`. -/
def jsOrOne (n : ℕ) : ℕ := if n = 0 then 1 else n

/-- A box size fed to the packer (integer pixel dimensions). -/
structure SizeBox where
  w : ℕ
  h : ℕ
deriving Repr, DecidableEq

/-- A box placed by the packer, before atlas scaling. -/
structure PlacedBox where
  x : ℕ
  y : ℕ
  w : ℕ
  h : ℕ
deriving Repr, DecidableEq

/-- Stable insertion into a list sorted by descending height. -/
def insertDescH (b : SizeBox) : List SizeBox → List SizeBox
  | [] => [b]
  | c :: rest => if c.h < b.h then b :: c :: rest else c :: insertDescH b rest

/-- Sort by descending height (stable). -/
def sortDescHeight (l : List SizeBox) : List SizeBox := l.foldr insertDescH []

/-- State of the shelf placement: boxes placed so far, the x cursor on the
current shelf, the current shelf's y origin and its height. -/
structure ShelfState where
  placed : List PlacedBox
  cx : ℕ
  cy : ℕ
  sh : ℕ
deriving Repr, DecidableEq

/-- Place one box on the current shelf if it fits (or the shelf is empty),
else open a new shelf below. -/
def placeBox (container : ℕ) (st : ShelfState) (b : SizeBox) : ShelfState :=
  if st.cx + b.w ≤ container ∨ st.cx = 0 then
    { placed := st.placed ++ [⟨st.cx, st.cy, b.w, b.h⟩]
      cx := st.cx + b.w, cy := st.cy, sh := max st.sh b.h }
  else
    { placed := st.placed ++ [⟨0, st.cy + st.sh, b.w, b.h⟩]
      cx := b.w, cy := st.cy + st.sh, sh := b.h }

/-- Modelled from the spec: the `potpack` rectangle packer (an external
dependency, not part of `src/`): "a shelf/skyline bin-packing heuristic
(sort by descending height, place greedily into growing shelves)",
returning the placed boxes (in sorted order, mirroring potpack's in-place
sort of its argument) and the total bounding box `(w, h)`. -/
def specPotpack (boxes : List SizeBox) : List PlacedBox × ℕ × ℕ :=
  let maxWidth := boxes.foldl (fun acc b => max acc b.w) 0
  let area := boxes.foldl (fun acc b => acc + b.w * b.h) 0
  let container := max maxWidth (Nat.sqrt area)
  let sorted := sortDescHeight boxes
  let fin := sorted.foldl (placeBox container) ⟨[], 0, 0, 0⟩
  (fin.placed, fin.placed.foldl (fun acc b => max acc (b.x + b.w)) 0, fin.cy + fin.sh)

/-- The scaling step of `MaterialAtlas.generatePackingLayout` (lines
226-238): `scale = Math.min(atlasSize / w, atlasSize / h)`, then every
box's `w`, `h`, `x`, `y` is multiplied by `scale` and floored. -/
def scaleBoxes (placed : List PlacedBox) (w h : ℕ) (atlasSize : ℚ) : List PackBox :=
  let scale := jsMin (atlasSize / w) (atlasSize / h)
  placed.map fun b =>
    ⟨jsFloor (b.x * scale), jsFloor (b.y * scale),
     jsFloor (b.w * scale), jsFloor (b.h * scale)⟩

/-- `MaterialAtlas.generatePackingLayout`: box sizes from the texture
images (`width || 1`, `height || 1`), packed by potpack, then scaled to the
requested atlas size. -/
def generatePackingLayout (images : List (ℕ × ℕ)) (atlasSize : ℚ) : List PackBox :=
  let boxes := images.map fun im => SizeBox.mk (jsOrOne im.1) (jsOrOne im.2)
  let packed := specPotpack boxes
  scaleBoxes packed.1 packed.2.1 packed.2.2 atlasSize

/-- `THREE.Matrix4` (row-major entries `nij` = row `i`, column `j`). -/
structure Mat4 where
  n11 : ℚ
  n12 : ℚ
  n13 : ℚ
  n14 : ℚ
  n21 : ℚ
  n22 : ℚ
  n23 : ℚ
  n24 : ℚ
  n31 : ℚ
  n32 : ℚ
  n33 : ℚ
  n34 : ℚ
  n41 : ℚ
  n42 : ℚ
  n43 : ℚ
  n44 : ℚ
deriving Repr, DecidableEq

/-- The identity matrix. -/
def Mat4.identity : Mat4 :=
  ⟨1, 0, 0, 0, 0, 1, 0, 0, 0, 0, 1, 0, 0, 0, 0, 1⟩

/-- `Vector3.applyMatrix4`: affine application with perspective divide. -/
def applyMat4 (m : Mat4) (p : Vec3) : Vec3 :=
  let w := 1 / (m.n41 * p.x + m.n42 * p.y + m.n43 * p.z + m.n44)
  ⟨(m.n11 * p.x + m.n12 * p.y + m.n13 * p.z + m.n14) * w,
   (m.n21 * p.x + m.n22 * p.y + m.n23 * p.z + m.n24) * w,
   (m.n31 * p.x + m.n32 * p.y + m.n33 * p.z + m.n34) * w⟩

/-- The normal matrix (inverse transpose of the upper-left 3×3, i.e. the
cofactor matrix divided by the determinant) applied to a normal.  The final
unit renormalization of `BufferGeometry.applyMatrix4` is a square root and
is not representable over `ℚ`; no claim reads normal magnitudes. -/
def applyNormalMat (m : Mat4) (n : Vec3) : Vec3 :=
  let det := m.n11 * (m.n22 * m.n33 - m.n23 * m.n32)
    - m.n12 * (m.n21 * m.n33 - m.n23 * m.n31)
    + m.n13 * (m.n21 * m.n32 - m.n22 * m.n31)
  let c11 := m.n22 * m.n33 - m.n23 * m.n32
  let c12 := -(m.n21 * m.n33 - m.n23 * m.n31)
  let c13 := m.n21 * m.n32 - m.n22 * m.n31
  let c21 := -(m.n12 * m.n33 - m.n13 * m.n32)
  let c22 := m.n11 * m.n33 - m.n13 * m.n31
  let c23 := -(m.n11 * m.n32 - m.n12 * m.n31)
  let c31 := m.n12 * m.n23 - m.n13 * m.n22
  let c32 := -(m.n11 * m.n23 - m.n13 * m.n21)
  let c33 := m.n11 * m.n22 - m.n12 * m.n21
  ⟨(c11 * n.x + c12 * n.y + c13 * n.z) / det,
   (c21 * n.x + c22 * n.y + c23 * n.z) / det,
   (c31 * n.x + c32 * n.y + c33 * n.z) / det⟩

/-- `BufferGeometry.applyMatrix4`: positions by the matrix, normals by the
normal matrix; uv and index untouched. -/
def applyMat4ToGeometry (m : Mat4) (g : Geometry) : Geometry :=
  { g with
    positions := g.positions.map (applyMat4 m)
    normals := g.normals.map fun ns => ns.map (applyNormalMat m) }

/-- A 3×3 rotation matrix. -/
structure Mat3 where
  r11 : ℚ
  r12 : ℚ
  r13 : ℚ
  r21 : ℚ
  r22 : ℚ
  r23 : ℚ
  r31 : ℚ
  r32 : ℚ
  r33 : ℚ
deriving Repr, DecidableEq

/-- A user transform (`Required<Transform>` of types.ts).  The Euler
rotation is modelled by the rotation matrix it denotes, because the
Euler-to-matrix conversion of `Matrix4.compose` evaluates sines and
cosines, which are transcendental; every claim is invariant under the
choice of rotation matrix. -/
structure TransformM where
  position : Vec3
  rotation : Mat3
  scale : Vec3
deriving Repr, DecidableEq

/-- The identity transform (`createDefaultTransform` denotes the identity
rotation matrix). -/
def defaultTransform : TransformM :=
  { position := ⟨0, 0, 0⟩, rotation := ⟨1, 0, 0, 0, 1, 0, 0, 0, 1⟩, scale := ⟨1, 1, 1⟩ }

/-- `Matrix4.compose(position, quaternion, scale)`: translation ∘ rotation
∘ scale as one affine matrix. -/
def composeMatrix (t : TransformM) : Mat4 :=
  ⟨t.rotation.r11 * t.scale.x, t.rotation.r12 * t.scale.y, t.rotation.r13 * t.scale.z, t.position.x,
   t.rotation.r21 * t.scale.x, t.rotation.r22 * t.scale.y, t.rotation.r23 * t.scale.z, t.position.y,
   t.rotation.r31 * t.scale.x, t.rotation.r32 * t.scale.y, t.rotation.r33 * t.scale.z, t.position.z,
   0, 0, 0, 1⟩

/-- `applyTransformToGeometry` (utils/mathUtils.ts): compose the matrix
from the transform and apply it to the geometry. -/
def applyTransformToGeometry (t : TransformM) (g : Geometry) : Geometry :=
  applyMat4ToGeometry (composeMatrix t) g

/-- `BufferGeometry.toNonIndexed`: expand every attribute along the index. -/
def toNonIndexed (g : Geometry) : Geometry :=
  match g.index with
  | none => g
  | some ix =>
    { positions := ix.map fun i => vAt g.positions i
      normals := g.normals.map fun ns => ix.map fun i => vAt ns i
      uvs := g.uvs.map fun us => ix.map fun i => uvAt us i
      index := none }

/-- `ensureNonIndexed` (GeometryMerger.ts): convert only if indexed. -/
def ensureNonIndexed (g : Geometry) : Geometry :=
  match g.index with
  | some _ => toNonIndexed g
  | none => g

def Vec3.cross (a b : Vec3) : Vec3 :=
  ⟨a.y * b.z - a.z * b.y, a.z * b.x - a.x * b.z, a.x * b.y - a.y * b.x⟩

/-- `BufferGeometry.computeVertexNormals` on a non-indexed geometry (the
only way the repository invokes it): each face's cross-product normal is
assigned to its three vertices.  The unit normalization (a square root) is
omitted; no claim reads normal values. -/
def computeVertexNormals (g : Geometry) : Geometry :=
  let triCount := g.positions.length / 3
  let ns := (List.range triCount).flatMap fun i =>
    let pA := vAt g.positions (i * 3)
    let pB := vAt g.positions (i * 3 + 1)
    let pC := vAt g.positions (i * 3 + 2)
    let cb := pC.sub pB
    let ab := pA.sub pB
    let n := cb.cross ab
    [n, n, n]
  { g with normals := some ns }

/-- `ensureUVAttribute` (GeometryMerger.ts in part_012): zero-fill a
missing uv attribute. -/
def ensureUVAttribute (g : Geometry) : Geometry :=
  match g.uvs with
  | some _ => g
  | none => { g with uvs := some (List.replicate g.positions.length ⟨0, 0⟩) }

/-- `ensureNormalAttribute`: compute vertex normals if missing. -/
def ensureNormalAttribute (g : Geometry) : Geometry :=
  match g.normals with
  | some _ => g
  | none => computeVertexNormals g

/-- `normalizeGeometryAttributes` (GeometryMerger.ts in part_012): ensure
uv and normal on every geometry, then keep the attribute names common to
all.  On the modelled attribute set {position, normal, uv} the
keep-common-attributes pass is the identity: all three are in the source's
`essentialAttributes` set and are present everywhere after the ensure
step; morph attributes are not modelled. -/
def normalizeGeometryAttributes (gs : List Geometry) : List Geometry :=
  gs.map fun g => ensureNormalAttribute (ensureUVAttribute g)

/-- Modelled from the spec: `mergeGeometries` of three.js
`BufferGeometryUtils` (a dependency, not part of `src/`) at this call
site's shape — "concatenate into one final geometry buffer".  It validates
that all geometries carry the same attributes and (like the original)
fails on an inconsistent or empty input, then concatenates each
attribute. -/
def mergeGeometries (gs : List Geometry) : Option Geometry :=
  if gs.isEmpty then none
  else if gs.all (fun g => g.normals.isSome && g.uvs.isSome && g.index.isNone) then
    some { positions := (gs.map (·.positions)).flatten
           normals := some ((gs.map fun g => g.normals.getD []).flatten)
           uvs := some ((gs.map fun g => g.uvs.getD []).flatten)
           index := none }
  else none

/-- A mesh as the merger sees it: its geometry, its single material
(an opaque id standing for the `THREE.Material` object identity) and its
world matrix within the model's scene. -/
structure Mesh where
  geometry : Geometry
  materialId : ℕ
  matrixWorld : Mat4
deriving Repr, DecidableEq

/-- A scene: the meshes `scene.traverse` visits, in traversal order. -/
structure Scene where
  meshes : List Mesh
deriving Repr, DecidableEq

/-- Result record of `GeometryMerger.merge`. -/
structure MergeResult where
  geometry : Geometry
  materials : List ℕ
  materialMapping : List (ℕ × List ℕ)
deriving Repr, DecidableEq

/-- Accumulator of the mesh loop in `GeometryMerger.merge`. -/
structure MergeAcc where
  geometries : List Geometry
  materials : List ℕ
  materialMapping : List (ℕ × List ℕ)
  vertexOffset : ℕ
deriving Repr, DecidableEq

/-- The per-mesh processed geometry: clone, expand the index, bake the
mesh's world matrix, then the user transform. -/
def transformedGeometry (t : TransformM) (m : Mesh) : Geometry :=
  applyTransformToGeometry t (applyMat4ToGeometry m.matrixWorld (ensureNonIndexed m.geometry))

/-- The body of the mesh loop of `GeometryMerger.merge` (part_012 lines
1402-1445): process the geometry, record the triangle range under the
mesh's material (extending an existing entry), advance the offset. -/
def processMesh (t : TransformM) (acc : MergeAcc) (m : Mesh) : MergeAcc :=
  let geometry := transformedGeometry t m
  let vertexCount := geometry.positions.length
  let triangleCount := vertexCount / 3
  let triangleIndices := (List.range triangleCount).map fun i => acc.vertexOffset + i
  match mapGet acc.materialMapping m.materialId with
  | some _ =>
    { geometries := acc.geometries ++ [geometry]
      materials := acc.materials
      materialMapping := mapModify acc.materialMapping m.materialId (· ++ triangleIndices)
      vertexOffset := acc.vertexOffset + triangleCount }
  | none =>
    { geometries := acc.geometries ++ [geometry]
      materials := acc.materials ++ [m.materialId]
      materialMapping := acc.materialMapping ++ [(m.materialId, triangleIndices)]
      vertexOffset := acc.vertexOffset + triangleCount }

/-- `GeometryMerger.merge` (part_012 lines 1382-1471).  The caller
(`MeshMerger.merge`) always passes `scenes` and `transforms` of equal
length; the zip realizes the `transforms[sceneIndex]` lookup. -/
def geometryMergerMerge (scenes : List Scene) (transforms : List TransformM) :
    Except String MergeResult :=
  let acc := (scenes.zip transforms).foldl
    (fun acc st => st.1.meshes.foldl (processMesh st.2) acc) ⟨[], [], [], 0⟩
  if acc.geometries.isEmpty then .error "No meshes found in scenes"
  else
    match mergeGeometries (normalizeGeometryAttributes acc.geometries) with
    | none => .error "Failed to merge geometries"
    | some merged => .ok ⟨merged, acc.materials, acc.materialMapping⟩

/-- The vertex count of a geometry once expanded to non-indexed triangle
soup. -/
def expandedVertexCount (g : Geometry) : ℕ :=
  match g.index with
  | some ix => ix.length
  | none => g.positions.length

/-- Triangle count of a mesh's geometry after expansion. -/
def meshTriangleCount (m : Mesh) : ℕ := expandedVertexCount m.geometry / 3

/-- A single triangle stored indexed (3 vertices, index `[0,1,2]`). -/
def exGeomIndexed : Geometry :=
  { positions := [⟨0, 0, 0⟩, ⟨2, 0, 0⟩, ⟨0, 2, 0⟩]
    normals := none
    uvs := some [⟨0, 0⟩, ⟨1, 0⟩, ⟨0, 1⟩]
    index := some [0, 1, 2] }

/-- Concrete meshes for the merge witness. -/
def exMeshA : Mesh := { geometry := exTriGeometry, materialId := 0, matrixWorld := Mat4.identity }

def exMeshB : Mesh := { geometry := exGeomIndexed, materialId := 1, matrixWorld := Mat4.identity }

/-- A 2D-canvas drawing operation, as issued by the decal baker and the
atlas builder.  `drawImage` records the source texture id, the destination
rectangle and the `globalAlpha` in force; `fillRect` records the fill color
(rgba) and rectangle.  `geometryDecal` — modelled from the spec: the
`DecalGeometry`-based fallback draw for a decal without a UV hint
(three.js `DecalGeometry`, a dependency, not part of `src/`) — records the
decal and its opacity opaquely. -/
inductive DrawOp where
  | drawImage (tex : ℕ) (x y w h : ℚ) (alpha : ℚ)
  | fillRect (r g b a : ℚ) (x y w h : ℚ)
  | geometryDecal (decalId : ℕ) (opacity : ℚ)
deriving Repr, DecidableEq

/-- The pixel content of an image: either an externally decoded source
picture (opaque id) or a canvas described by its drawing history. -/
inductive ImageData where
  | sourcePic (sid : ℕ)
  | canvas (ops : List DrawOp)
deriving Repr, DecidableEq

/-- An image object (`texture.image`). -/
structure Image where
  width : ℕ
  height : ℕ
  data : ImageData
deriving Repr, DecidableEq

/-- The store of texture objects: images keyed by texture id, plus the
next fresh id.  Creating a `CanvasTexture` allocates a fresh id. -/
structure TexStore where
  heap : List (ℕ × Image)
  next : ℕ
deriving Repr, DecidableEq

/-- Allocate a new texture object. -/
def TexStore.alloc (ts : TexStore) (img : Image) : ℕ × TexStore :=
  (ts.next, ⟨ts.heap ++ [(ts.next, img)], ts.next + 1⟩)

/-- Well-formedness: every allocated id is below the fresh counter. -/
def TexStore.wf (ts : TexStore) : Prop := ∀ p ∈ ts.heap, p.1 < ts.next

/-- `drawDecalAtUV` (DecalBaker.ts): the destination rectangle derived
from the decal's UV hit and footprint scale (UV size `avgScale * 0.1`,
centered on the hit, V flipped for canvas coordinates), drawn as the debug
marker rectangle followed by the decal image at the decal's opacity. -/
def drawDecalAtUV (dtid : ℕ) (d : DecalInstance) (uv : Vec2) (cw ch : ℕ) : List DrawOp :=
  let avgScale := (d.scale.x + d.scale.y + d.scale.z) / 3
  let decalSizeInUV := avgScale * (1/10)
  let halfSize := decalSizeInUV / 2
  let minU := uv.x - halfSize
  let maxU := uv.x + halfSize
  let minV := uv.y - halfSize
  let maxV := uv.y + halfSize
  let x := minU * cw
  let y := (1 - maxV) * ch
  let w := (maxU - minU) * cw
  let h := (maxV - minV) * ch
  [DrawOp.fillRect 255 0 0 (1/2) x y w h, DrawOp.drawImage dtid x y w h d.opacity]

/-- `DecalBaker.bakeDecalsToModelTexture` (part_012 lines 237-344): null
without a base texture image; otherwise a fresh canvas of the target (or
original) size, the base image drawn scaled over it, then each decal with a
texture image drawn via its UV hint (or the DecalGeometry fallback). -/
def bakeDecalsToModelTexture (texHeap : List (ℕ × Image)) (material : MaterialRec)
    (decals : List DecalInstance) (targetTextureSize : Option ℕ) : Option Image :=
  match material.map with
  | none => none
  | some tid =>
    match mapGet texHeap tid with
    | none => none
    | some baseImg =>
      let originalWidth : ℕ := if baseImg.width = 0 then 1024 else baseImg.width
      let originalHeight : ℕ := if baseImg.height = 0 then 1024 else baseImg.height
      let canvasWidth : ℕ := match targetTextureSize with
        | some ts => if ts = 0 then originalWidth else ts
        | none => originalWidth
      let canvasHeight : ℕ := match targetTextureSize with
        | some ts => if ts = 0 then originalHeight else ts
        | none => originalHeight
      let ops0 := [DrawOp.drawImage tid 0 0 (canvasWidth : ℚ) (canvasHeight : ℚ) 1]
      let ops := decals.foldl (fun ops d =>
        match d.texture with
        | none => ops
        | some dtid =>
          match mapGet texHeap dtid with
          | none => ops
          | some _ =>
            match d.uv with
            | some uv => ops ++ drawDecalAtUV dtid d uv canvasWidth canvasHeight
            | none => ops ++ [DrawOp.geometryDecal d.id d.opacity]) ops0
      some ⟨canvasWidth, canvasHeight, .canvas ops⟩

/-- The geometry processing of `MeshMerger.collectModelMeshInfo`: clone,
expand the index, ensure normals, bake the mesh's matrix relative to the
scene root (the scene is the root, so the relative matrix is the mesh's
world matrix). -/
def processedBakeMesh (mesh : Mesh) : Mesh :=
  let geo := ensureNonIndexed mesh.geometry
  let geo := match geo.normals with
    | some _ => geo
    | none => computeVertexNormals geo
  { mesh with geometry := applyMat4ToGeometry mesh.matrixWorld geo }

/-- A registered model (`ModelInstance` of types.ts): opaque id, owned
scene, user transform. -/
structure ModelInstance where
  id : ℕ
  scene : Scene
  transform : TransformM
deriving Repr, DecidableEq

/-- The state a `MeshMerger` instance owns: the model store, the decal
store (`DecalManager`), the material objects of the loaded assets (keyed
by material id — object identity), the texture objects, and the merged
mesh produced by the last merge. -/
structure MergerState where
  models : List (ℕ × ModelInstance)
  decals : List (ℕ × DecalInstance)
  matHeap : List (ℕ × MaterialRec)
  tex : TexStore
  mergedMesh : Option (Geometry × MaterialRec)
deriving Repr, DecidableEq

/-- The errors `MeshMerger.merge` can throw before producing a result. -/
inductive MergeError where
  | noModels
  | noMeshes
  | mergeFailed
deriving Repr, DecidableEq

/-- The options of `merge` relevant to the modelled pipeline. -/
structure MergeOptionsM where
  atlasSize : Option ℕ
  materialOverrides : Option MaterialOverrides
deriving Repr, DecidableEq

/-- Group decals by target model id, keys in first-occurrence order,
values in stream order (the `Map`-based grouping of `MeshMerger.merge`). -/
def groupByModel (ds : List DecalInstance) : List (ℕ × List DecalInstance) :=
  ds.foldl (fun acc d =>
    match mapGet acc d.targetModelId with
    | some _ => mapModify acc d.targetModelId (· ++ [d])
    | none => acc ++ [(d.targetModelId, [d])]) []

/-- One iteration of the decal-bake loop of `MeshMerger.merge`: skip
models without mesh info or without a base texture; otherwise bake and
swap the material's `map` reference to the freshly created texture. -/
def bakeOne (opts : MergeOptionsM) (modelMaterialMap : List (ℕ × (Mesh × ℕ)))
    (st : MergerState) (group : ℕ × List DecalInstance) : MergerState :=
  match mapGet modelMaterialMap group.1 with
  | none => st
  | some (_, matId) =>
    let material := (mapGet st.matHeap matId).getD mkMeshStandardMaterial
    match material.map with
    | none => st
    | some _ =>
      let targetSize := match opts.atlasSize with
        | some n => if n = 0 then 2048 else n
        | none => 2048
      match bakeDecalsToModelTexture st.tex.heap material group.2 (some targetSize) with
      | none => st
      | some img =>
        let alloc := st.tex.alloc img
        { st with
          tex := alloc.2
          matHeap := mapModify st.matHeap matId fun m => { m with map := some alloc.1 } }

/-- `collectModelMeshInfo` over all models: the first mesh of each model's
scene with its material id. -/
def collectModelMeshInfos (modelList : List ModelInstance) : List (ℕ × (Mesh × ℕ)) :=
  modelList.filterMap fun model =>
    match model.scene.meshes.head? with
    | none => none
    | some mesh => some (model.id, (processedBakeMesh mesh, mesh.materialId))

/-- The decal-bake stage of `MeshMerger.merge`: group the decals by model
and bake each group onto its model's base texture. -/
def bakeStage (opts : MergeOptionsM) (st : MergerState) : MergerState :=
  let modelList := st.models.map (·.2)
  let modelMaterialMap := collectModelMeshInfos modelList
  let allDecals := st.decals.map (·.2)
  if allDecals.isEmpty then st
  else (groupByModel allDecals).foldl (bakeOne opts modelMaterialMap) st

/-- `createSolidColorTexture` (utils/textureUtils.ts): a 256×256 canvas
filled with the color. -/
def createSolidColorImage (c : Color) : Image :=
  ⟨256, 256, .canvas [DrawOp.fillRect c.r c.g c.b 1 0 0 256 256]⟩

/-- Resolve a material id against the material store (merge only feeds ids
of registered materials; the default stands for a dangling reference). -/
def resolveMaterial (matHeap : List (ℕ × MaterialRec)) (m : ℕ) : MaterialRec :=
  (mapGet matHeap m).getD mkMeshStandardMaterial

/-- The albedo arm of `MaterialAtlas.extractTexturesByType`: each
material's `map` texture, or a freshly created solid-color texture from
its `color` fallback. -/
def extractAlbedoStep (matHeap : List (ℕ × MaterialRec)) (acc : List ℕ × TexStore)
    (m : ℕ) : List ℕ × TexStore :=
  let mat := resolveMaterial matHeap m
  match mat.map with
  | some tid => (acc.1 ++ [tid], acc.2)
  | none =>
    let alloc := acc.2.alloc (createSolidColorImage mat.color)
    (acc.1 ++ [alloc.1], alloc.2)

def extractAlbedo (matHeap : List (ℕ × MaterialRec)) (ts : TexStore)
    (materialIds : List ℕ) : List ℕ × TexStore :=
  materialIds.foldl (extractAlbedoStep matHeap) ([], ts)

/-- `texture.image` dimensions as read by `generatePackingLayout` (the
source would fault on a texture with no image; claims only reach resolvable
textures). -/
def imageSize (texHeap : List (ℕ × Image)) (tid : ℕ) : ℕ × ℕ :=
  match mapGet texHeap tid with
  | some img => (img.width, img.height)
  | none => (1, 1)

/-- `MaterialAtlas.createAtlas`: an `atlasSize`-square canvas cleared with
transparent black, then every texture drawn resized into its packed box. -/
def createAtlasImage (atlasSize : ℕ) (texIds : List ℕ) (layout : List PackBox) : Image :=
  ⟨atlasSize, atlasSize, .canvas (DrawOp.fillRect 0 0 0 0 0 0 (atlasSize : ℚ) (atlasSize : ℚ) ::
    (texIds.zip layout).map fun tl => DrawOp.drawImage tl.1 tl.2.x tl.2.y tl.2.w tl.2.h 1)⟩

/-- The flat `Float32Array` view of a uv list. -/
def uvFlat (uvs : List Vec2) : ℕ → ℚ := fun idx =>
  if idx % 2 = 0 then (uvAt uvs (idx / 2)).x else (uvAt uvs (idx / 2)).y

/-- Rebuild the uv list from the flat view. -/
def uvUnflat (n : ℕ) (f : ℕ → ℚ) : List Vec2 :=
  (List.range n).map fun i => ⟨f (2 * i), f (2 * i + 1)⟩

/-- `MaterialAtlas.generate` restricted to the default atlas mode (albedo
only — the channel the claims exercise): extract albedo textures, compute
the packing layout, build the atlas texture, rewrite the geometry's UVs,
and synthesize the merged material's properties. -/
def atlasGenerate (matHeap : List (ℕ × MaterialRec)) (ts : TexStore)
    (materialIds : List ℕ) (materialMapping : List (ℕ × List ℕ)) (geometry : Geometry)
    (atlasSize : ℕ) (overrides : Option MaterialOverrides) :
    MaterialRec × Geometry × TexStore :=
  let ex := extractAlbedo matHeap ts materialIds
  let layout := generatePackingLayout (ex.1.map (imageSize ex.2.heap)) (atlasSize : ℚ)
  let alloc := ex.2.alloc (createAtlasImage atlasSize ex.1 layout)
  let geometry' := match geometry.uvs with
    | none => geometry
    | some uvs =>
      { geometry with uvs := some (uvUnflat uvs.length
          (updateUVCoordinates materialIds (fun m => mapGet materialMapping m) layout
            (atlasSize : ℚ) (uvFlat uvs))) }
  let base : MaterialRec := { mkMeshStandardMaterial with map := some alloc.1 }
  let material := setMaterialProperties base (materialIds.map (resolveMaterial matHeap)) overrides
  (material, geometry', alloc.2)

/-- `MeshMerger.merge` (MeshMerger.ts lines 294-420): fail without models;
bake decals onto each target model's own texture (swapping the material's
`map`); merge the geometries (fail without meshes); build the atlas and
merged material; store the merged mesh. -/
def mergeRun (opts : MergeOptionsM) (st : MergerState) : MergerState × Except MergeError Unit :=
  if st.models.isEmpty then (st, .error .noModels)
  else
    let modelList := st.models.map (·.2)
    let scenes := modelList.map (·.scene)
    let transforms := modelList.map (·.transform)
    let st1 := bakeStage opts st
    match geometryMergerMerge scenes transforms with
    | .error e =>
      (st1, .error (if e = "No meshes found in scenes" then .noMeshes else .mergeFailed))
    | .ok res =>
      let gen := atlasGenerate st1.matHeap st1.tex res.materials res.materialMapping
        res.geometry (opts.atlasSize.getD 2048) opts.materialOverrides
      ({ st1 with tex := gen.2.2, mergedMesh := some (gen.2.1, gen.1) }, .ok ())

/-- A base material pointing at texture `0`. -/
def exBaseMat : MaterialRec := { mkMeshStandardMaterial with map := some 0 }

/-- A decal targeting model `0` with a UV hint and texture `1`. -/
def exDecal9 : DecalInstance :=
  { id := 7, targetModelId := 0, position := ⟨0, 0, 0⟩, rotation := ⟨0, 0, 0⟩
    scale := ⟨1, 1, 1⟩, opacity := 1, uv := some ⟨1/2, 1/2⟩, texture := some 1 }

/-- A registered model with one single-triangle mesh. -/
def exModel : ModelInstance := { id := 0, scene := ⟨[exMeshA]⟩, transform := defaultTransform }

/-- A merger state with one textured model and one decal. -/
def exBakeState : MergerState :=
  { models := [(0, exModel)]
    decals := [(7, exDecal9)]
    matHeap := [(0, exBaseMat)]
    tex := ⟨[(0, ⟨2, 2, .sourcePic 0⟩), (1, ⟨8, 8, .sourcePic 1⟩)], 2⟩
    mergedMesh := none }

/-- Default merge options. -/
def exOpts : MergeOptionsM := { atlasSize := none, materialOverrides := none }

/-- A merger state with a registered model whose scene has no meshes. -/
def exNoMeshState : MergerState :=
  { models := [(0, { id := 0, scene := ⟨[]⟩, transform := defaultTransform })]
    decals := [(7, exDecal9)]
    matHeap := [(0, exBaseMat)]
    tex := ⟨[(0, ⟨2, 2, .sourcePic 0⟩)], 1⟩
    mergedMesh := none }

/-- The barycentric denominator `dot00 * dot11 - dot01 * dot01` computed by
`DecalBaker.getBarycentricCoords`.  By the Lagrange identity it is the
squared norm of the cross product `edge0 × edge1`, so over exact arithmetic
it is zero exactly when the triangle is degenerate (edges linearly
dependent: collinear or repeated vertices). -/
def baryDenom (v0 v1 v2 : Vec3) : ℚ :=
  let edge0 := v1.sub v0
  let edge1 := v2.sub v0
  edge0.dot edge0 * (edge1.dot edge1) - edge0.dot edge1 * (edge0.dot edge1)

/-- `DecalBaker.getBarycentricCoords` with the IEEE degenerate path made
explicit (`none` stands for the all-NaN vector).  Over floats a degenerate
triangle makes the denominator zero, so `invDenom = 1 / 0 = Infinity`; at
exact inputs both barycentric numerators are then exactly zero (proved in
`baryDenom_zero_numerators`), so `u = 0 * Infinity = NaN`, likewise `v`,
and `w = 1 - u - v = NaN`; every `Math.max(0, Math.min(1, x))` clamp
propagates NaN, the normalizing `sum` is NaN, and each final component is
`NaN / NaN = NaN`.  When the denominator is nonzero every intermediate
quantity is a finite rational and the computation is exactly
`getBarycentricCoords`. -/
def getBarycentricCoordsN (point v0 v1 v2 : Vec3) : Option Vec3 :=
  if baryDenom v0 v1 v2 = 0 then none
  else some (getBarycentricCoords point v0 v1 v2)

/-- Result of the NaN-aware projector: a UV component is `none` when the
IEEE computation yields NaN for it. -/
structure UVProjectionN where
  u : Option ℚ
  v : Option ℚ
  valid : Bool
deriving Repr, DecidableEq

/-- `Math.max(0, Math.min(1, x))` on a possibly-NaN value: both `Math.min`
and `Math.max` return NaN whenever an argument is NaN, so NaN passes
through the clamp unchanged. -/
def clampN (x : Option ℚ) : Option ℚ := x.map fun q => clamp q 0 1

/-- NaN-aware loop-body UV of `DecalBaker.findClosestTriangleUV`:
interpolating the UV corners by NaN weights (`uv0.x * NaN + ...`) yields
NaN for both components. -/
def triBaryUVN (pos : List Vec3) (uv : List Vec2) (point : Vec3) (i : ℕ) :
    Option (ℚ × ℚ) :=
  let v0 := vAt pos (i * 3)
  let v1 := vAt pos (i * 3 + 1)
  let v2 := vAt pos (i * 3 + 2)
  match getBarycentricCoordsN point v0 v1 v2 with
  | none => none
  | some bary =>
    let uv0 := uvAt uv (i * 3)
    let uv1 := uvAt uv (i * 3 + 1)
    let uv2 := uvAt uv (i * 3 + 2)
    some (uv0.x * bary.x + uv1.x * bary.y + uv2.x * bary.z,
          uv0.y * bary.x + uv1.y * bary.y + uv2.y * bary.z)

/-- NaN-aware triangle loop of `DecalBaker.findClosestTriangleUV`: the
centroid distances compared by the loop are always finite rationals, but
the carried closest UV pair may be NaN (`none`). -/
def findLoopN (pos : List Vec3) (uv : List Vec2) (point : Vec3) :
    List ℕ → Option (ℚ × Option (ℚ × ℚ)) → Option (ℚ × Option (ℚ × ℚ))
  | [], st => st
  | i :: rest, st =>
    let d := centroidDistSq pos point i
    match st with
    | none => findLoopN pos uv point rest (some (d, triBaryUVN pos uv point i))
    | some (cd, cuv) =>
      if d < cd then
        findLoopN pos uv point rest (some (d, triBaryUVN pos uv point i))
      else
        findLoopN pos uv point rest (some (cd, cuv))

/-- `DecalBaker.findClosestTriangleUV` with the IEEE degenerate path made
explicit: when the winning triangle is degenerate the returned `u` and `v`
are NaN (`none`) — the final `Math.max(0, Math.min(1, x))` clamps do not
stop NaN — while `valid` is still `true`.  Wherever it returns a number it
agrees with `findClosestTriangleUV` (theorem
`findClosestTriangleUVN_refines`). -/
def findClosestTriangleUVN (g : Geometry) (point : Vec3) : UVProjectionN :=
  match g.uvs with
  | none => ⟨some 0, some 0, false⟩
  | some uv =>
    let triCount := g.positions.length / 3
    match findLoopN g.positions uv point (List.range triCount) none with
    | none => ⟨clampN (some 0), clampN (some 0), false⟩
    | some (_, cuv) => ⟨clampN (cuv.map Prod.fst), clampN (cuv.map Prod.snd), true⟩

/-- A degenerate single-triangle geometry: three collinear vertices
`(0,0,0) (1,0,0) (2,0,0)` (zero area), with position and uv attributes
present. -/
def exDegenGeometry : Geometry :=
  { positions := [⟨0, 0, 0⟩, ⟨1, 0, 0⟩, ⟨2, 0, 0⟩]
    normals := none
    uvs := some [⟨0, 0⟩, ⟨1, 0⟩, ⟨0, 1⟩]
    index := none }

/-- Query point for the degenerate-triangle counterexample. -/
def exDegenPoint : Vec3 := ⟨0, 1, 0⟩

theorem jsMin_le_left (a b : ℚ) : jsMin a b ≤ a := by
  unfold jsMin; split
  · exact le_refl a
  · exact le_of_not_le (by assumption)

theorem le_jsMax_left (a b : ℚ) : a ≤ jsMax a b := by
  unfold jsMax; split
  · assumption
  · exact le_refl a

theorem jsMax_le (a b c : ℚ) (ha : a ≤ c) (hb : b ≤ c) : jsMax a b ≤ c := by
  unfold jsMax; split <;> assumption

theorem clamp_le (value lo hi : ℚ) (h : lo ≤ hi) : clamp value lo hi ≤ hi :=
  jsMax_le _ _ _ h (jsMin_le_left _ _)

theorem le_clamp (value lo hi : ℚ) : lo ≤ clamp value lo hi := le_jsMax_left _ _

theorem findLoop_append (pos : List Vec3) (uv : List Vec2) (p : Vec3)
    (l1 l2 : List ℕ) (st : Option (ℚ × ℚ × ℚ)) :
    findLoop pos uv p (l1 ++ l2) st = findLoop pos uv p l2 (findLoop pos uv p l1 st) := by
  induction l1 generalizing st with
  | nil => rfl
  | cons i rest ih =>
    simp only [List.cons_append, findLoop]
    cases st with
    | none => exact ih _
    | some s =>
      obtain ⟨cd, cu, cv⟩ := s
      by_cases h : centroidDistSq pos p i < cd
      · simp only [if_pos h]; exact ih _
      · simp only [if_neg h]; exact ih _

/-- The triangle loop computes, over the index range `[0, n)`, the first
index attaining the minimal centroid distance, together with the raw
interpolated UV of that triangle. -/
theorem findLoop_range_argmin (pos : List Vec3) (uv : List Vec2) (p : Vec3) :
    ∀ n : ℕ, 1 ≤ n →
    ∃ k, k < n ∧ (∀ j, j < n → centroidDistSq pos p k ≤ centroidDistSq pos p j) ∧
      (∀ j, j < k → centroidDistSq pos p k < centroidDistSq pos p j) ∧
      findLoop pos uv p (List.range n) none =
        some (centroidDistSq pos p k, triBaryUV pos uv p k) := by
  intro n
  induction n with
  | zero => omega
  | succ n ih =>
    intro _
    by_cases hn : 1 ≤ n
    · obtain ⟨k, hk, hmin, hstrict, heq⟩ := ih hn
      rw [List.range_succ, findLoop_append, heq]
      by_cases h : centroidDistSq pos p n < centroidDistSq pos p k
      · refine ⟨n, by omega, ?_, ?_, ?_⟩
        · intro j hj
          rcases Nat.lt_succ_iff_lt_or_eq.mp hj with hj' | hj'
          · exact le_of_lt (lt_of_lt_of_le h (hmin j hj'))
          · subst hj'; exact le_refl _
        · intro j hj
          exact lt_of_lt_of_le h (hmin j (by omega))
        · simp only [findLoop, if_pos h]
      · refine ⟨k, by omega, ?_, hstrict, ?_⟩
        · intro j hj
          rcases Nat.lt_succ_iff_lt_or_eq.mp hj with hj' | hj'
          · exact hmin j hj'
          · subst hj'; exact le_of_not_lt h
        · simp only [findLoop, if_neg h]
    · have hzero : n = 0 := by omega
      subst hzero
      refine ⟨0, by omega, ?_, ?_, ?_⟩
      · intro j hj
        have : j = 0 := by omega
        subst this; exact le_refl _
      · intro j hj; omega
      · simp only [List.range_succ, List.range_zero, List.nil_append, findLoop]

theorem findLoopN_append (pos : List Vec3) (uv : List Vec2) (p : Vec3)
    (l1 l2 : List ℕ) (st : Option (ℚ × Option (ℚ × ℚ))) :
    findLoopN pos uv p (l1 ++ l2) st = findLoopN pos uv p l2 (findLoopN pos uv p l1 st) := by
  induction l1 generalizing st with
  | nil => rfl
  | cons i rest ih =>
    simp only [List.cons_append, findLoopN]
    cases st with
    | none => exact ih _
    | some s =>
      obtain ⟨cd, cuv⟩ := s
      by_cases h : centroidDistSq pos p i < cd
      · simp only [if_pos h]; exact ih _
      · simp only [if_neg h]; exact ih _

/-- The NaN-aware triangle loop computes, over the index range `[0, n)`,
the first index attaining the minimal centroid distance, together with the
(possibly NaN) raw interpolated UV of that triangle. -/
theorem findLoopN_range_argmin (pos : List Vec3) (uv : List Vec2) (p : Vec3) :
    ∀ n : ℕ, 1 ≤ n →
    ∃ k, k < n ∧ (∀ j, j < n → centroidDistSq pos p k ≤ centroidDistSq pos p j) ∧
      (∀ j, j < k → centroidDistSq pos p k < centroidDistSq pos p j) ∧
      findLoopN pos uv p (List.range n) none =
        some (centroidDistSq pos p k, triBaryUVN pos uv p k) := by
  intro n
  induction n with
  | zero => omega
  | succ n ih =>
    intro _
    by_cases hn : 1 ≤ n
    · obtain ⟨k, hk, hmin, hstrict, heq⟩ := ih hn
      rw [List.range_succ, findLoopN_append, heq]
      by_cases h : centroidDistSq pos p n < centroidDistSq pos p k
      · refine ⟨n, by omega, ?_, ?_, ?_⟩
        · intro j hj
          rcases Nat.lt_succ_iff_lt_or_eq.mp hj with hj' | hj'
          · exact le_of_lt (lt_of_lt_of_le h (hmin j hj'))
          · subst hj'; exact le_refl _
        · intro j hj
          exact lt_of_lt_of_le h (hmin j (by omega))
        · simp only [findLoopN, if_pos h]
      · refine ⟨k, by omega, ?_, hstrict, ?_⟩
        · intro j hj
          rcases Nat.lt_succ_iff_lt_or_eq.mp hj with hj' | hj'
          · exact hmin j hj'
          · subst hj'; exact le_of_not_lt h
        · simp only [findLoopN, if_neg h]
    · have hzero : n = 0 := by omega
      subst hzero
      refine ⟨0, by omega, ?_, ?_, ?_⟩
      · intro j hj
        have : j = 0 := by omega
        subst this; exact le_refl _
      · intro j hj; omega
      · simp only [List.range_succ, List.range_zero, List.nil_append, findLoopN]

/-- The first index attaining the minimum of a rational-valued function on
`[0, n)` is unique. -/
theorem first_argmin_unique (f : ℕ → ℚ) (n k1 k2 : ℕ)
    (h1 : k1 < n) (hm1 : ∀ j, j < n → f k1 ≤ f j) (hs1 : ∀ j, j < k1 → f k1 < f j)
    (h2 : k2 < n) (hm2 : ∀ j, j < n → f k2 ≤ f j) (hs2 : ∀ j, j < k2 → f k2 < f j) :
    k1 = k2 := by
  by_contra hne
  rcases Nat.lt_or_ge k1 k2 with h | h
  · exact absurd (hm1 k2 h2) (not_le.mpr (hs2 k1 h))
  · have h' : k2 < k1 := by omega
    exact absurd (hm2 k1 h1) (not_le.mpr (hs1 k2 h'))

theorem triBaryUVN_degen (pos : List Vec3) (uv : List Vec2) (p : Vec3) (i : ℕ)
    (hd : baryDenom (vAt pos (i * 3)) (vAt pos (i * 3 + 1)) (vAt pos (i * 3 + 2)) = 0) :
    triBaryUVN pos uv p i = none := by
  simp only [triBaryUVN, getBarycentricCoordsN, if_pos hd]

theorem triBaryUVN_nondegen (pos : List Vec3) (uv : List Vec2) (p : Vec3) (i : ℕ)
    (hd : ¬ baryDenom (vAt pos (i * 3)) (vAt pos (i * 3 + 1)) (vAt pos (i * 3 + 2)) = 0) :
    triBaryUVN pos uv p i = some (triBaryUV pos uv p i) := by
  simp only [triBaryUVN, triBaryUV, getBarycentricCoordsN, if_neg hd]

/-- Over exact arithmetic a zero barycentric denominator forces both
barycentric numerators of `getBarycentricCoords` to vanish: by the Lagrange
identity the denominator is the squared norm of `edge0 × edge1`, so it
vanishes only when the cross product does, and each numerator is the dot
product of `v0ToPoint` with a vector triple product that is linear in that
cross product.  This is why the source's degenerate-triangle path computes
`u = 0 * Infinity = NaN` (and likewise `v`) rather than a signed
infinity. -/
theorem baryDenom_zero_numerators (e0 e1 w : Vec3)
    (h : e0.dot e0 * (e1.dot e1) - e0.dot e1 * (e0.dot e1) = 0) :
    e1.dot e1 * (e0.dot w) - e0.dot e1 * (e1.dot w) = 0 ∧
    e0.dot e0 * (e1.dot w) - e0.dot e1 * (e0.dot w) = 0 := by
  simp only [Vec3.dot] at h ⊢
  have hl : (e0.y * e1.z - e0.z * e1.y) ^ 2 + (e0.z * e1.x - e0.x * e1.z) ^ 2
      + (e0.x * e1.y - e0.y * e1.x) ^ 2 = 0 := by linear_combination h
  have h1sq : (e0.y * e1.z - e0.z * e1.y) ^ 2 = 0 := by
    nlinarith [sq_nonneg (e0.z * e1.x - e0.x * e1.z), sq_nonneg (e0.x * e1.y - e0.y * e1.x),
      sq_nonneg (e0.y * e1.z - e0.z * e1.y)]
  have h2sq : (e0.z * e1.x - e0.x * e1.z) ^ 2 = 0 := by
    nlinarith [sq_nonneg (e0.y * e1.z - e0.z * e1.y), sq_nonneg (e0.x * e1.y - e0.y * e1.x),
      sq_nonneg (e0.z * e1.x - e0.x * e1.z)]
  have h3sq : (e0.x * e1.y - e0.y * e1.x) ^ 2 = 0 := by
    nlinarith [sq_nonneg (e0.y * e1.z - e0.z * e1.y), sq_nonneg (e0.z * e1.x - e0.x * e1.z),
      sq_nonneg (e0.x * e1.y - e0.y * e1.x)]
  have h1 : e0.y * e1.z - e0.z * e1.y = 0 := by
    exact sq_eq_zero_iff.mp h1sq
  have h2 : e0.z * e1.x - e0.x * e1.z = 0 := by
    exact sq_eq_zero_iff.mp h2sq
  have h3 : e0.x * e1.y - e0.y * e1.x = 0 := by
    exact sq_eq_zero_iff.mp h3sq
  constructor
  · linear_combination (w.y * e1.z - w.z * e1.y) * h1 + (w.z * e1.x - w.x * e1.z) * h2
      + (w.x * e1.y - w.y * e1.x) * h3
  · linear_combination (w.z * e0.y - w.y * e0.z) * h1 + (w.x * e0.z - w.z * e0.x) * h2
      + (w.y * e0.x - w.x * e0.y) * h3

/-- Wherever the NaN-aware projector returns a number for a UV component,
it is exactly the component the total-division embedding
`findClosestTriangleUV` returns, and the two `valid` flags always agree:
totalizing the IEEE division `1/0` diverges from the source only in the
NaN (`none`) results. -/
theorem findClosestTriangleUVN_refines (g : Geometry) (p : Vec3) :
    (findClosestTriangleUVN g p).valid = (findClosestTriangleUV g p).valid ∧
    (∀ q, (findClosestTriangleUVN g p).u = some q → (findClosestTriangleUV g p).u = q) ∧
    (∀ q, (findClosestTriangleUVN g p).v = some q → (findClosestTriangleUV g p).v = q) := by
  cases huv : g.uvs with
  | none =>
    simp [findClosestTriangleUVN, findClosestTriangleUV, huv]
  | some uv =>
    by_cases hone : 1 ≤ g.positions.length / 3
    · obtain ⟨k, hk, hmin, hstrict, heq⟩ :=
        findLoop_range_argmin g.positions uv p (g.positions.length / 3) hone
      obtain ⟨k', hk', hmin', hstrict', heq'⟩ :=
        findLoopN_range_argmin g.positions uv p (g.positions.length / 3) hone
      have hkk : k = k' :=
        first_argmin_unique (centroidDistSq g.positions p) (g.positions.length / 3)
          k k' hk hmin hstrict hk' hmin' hstrict'
      subst hkk
      by_cases hd : baryDenom (vAt g.positions (k * 3)) (vAt g.positions (k * 3 + 1))
          (vAt g.positions (k * 3 + 2)) = 0
      · simp [findClosestTriangleUVN, findClosestTriangleUV, huv, heq, heq',
          triBaryUVN_degen g.positions uv p k hd, clampN]
      · simp [findClosestTriangleUVN, findClosestTriangleUV, huv, heq, heq',
          triBaryUVN_nondegen g.positions uv p k hd, clampN]
    · have h0 : g.positions.length / 3 = 0 := by omega
      simp [findClosestTriangleUVN, findClosestTriangleUV, huv, h0, findLoop, findLoopN,
        clampN, List.range_zero]

/-- C10 (amended): on any geometry with position and uv attributes and at
least one triangle, the projector reports `valid = true`, and every
returned UV component that is a number lies in `[0,1]`; but when the
winning (first nearest-centroid) triangle is degenerate — its barycentric
denominator is zero, e.g. collinear vertices — the IEEE division `1/0`
makes both returned components NaN (`none` in the embedding) rather than
numbers in `[0,1]`, and the final clamps do not stop the NaN.  A component
is NaN exactly when that winning triangle is degenerate. -/
theorem c10_projector_valid_and_range_or_nan (g : Geometry) (uv : List Vec2) (p : Vec3)
    (huv : g.uvs = some uv) (h3 : 3 ≤ g.positions.length) :
    (findClosestTriangleUVN g p).valid = true ∧
    (∀ q, (findClosestTriangleUVN g p).u = some q → 0 ≤ q ∧ q ≤ 1) ∧
    (∀ q, (findClosestTriangleUVN g p).v = some q → 0 ≤ q ∧ q ≤ 1) ∧
    ∃ k, k < g.positions.length / 3 ∧
      (∀ j, j < g.positions.length / 3 →
        centroidDistSq g.positions p k ≤ centroidDistSq g.positions p j) ∧
      (∀ j, j < k → centroidDistSq g.positions p k < centroidDistSq g.positions p j) ∧
      (((findClosestTriangleUVN g p).u = none ∧ (findClosestTriangleUVN g p).v = none) ↔
        baryDenom (vAt g.positions (k * 3)) (vAt g.positions (k * 3 + 1))
          (vAt g.positions (k * 3 + 2)) = 0) := by
  have hone : 1 ≤ g.positions.length / 3 := by omega
  obtain ⟨k, hk, hmin, hstrict, heq⟩ :=
    findLoopN_range_argmin g.positions uv p (g.positions.length / 3) hone
  by_cases hd : baryDenom (vAt g.positions (k * 3)) (vAt g.positions (k * 3 + 1))
      (vAt g.positions (k * 3 + 2)) = 0
  · have hres : findClosestTriangleUVN g p = ⟨none, none, true⟩ := by
      simp [findClosestTriangleUVN, huv, heq, triBaryUVN_degen g.positions uv p k hd, clampN]
    rw [hres]
    refine ⟨rfl, ?_, ?_, k, hk, hmin, hstrict, ?_⟩
    · intro q hq; exact absurd hq (by simp)
    · intro q hq; exact absurd hq (by simp)
    · exact ⟨fun _ => hd, fun _ => ⟨rfl, rfl⟩⟩
  · have hres : findClosestTriangleUVN g p =
        ⟨some (clamp (triBaryUV g.positions uv p k).1 0 1),
         some (clamp (triBaryUV g.positions uv p k).2 0 1), true⟩ := by
      simp [findClosestTriangleUVN, huv, heq, triBaryUVN_nondegen g.positions uv p k hd, clampN]
    rw [hres]
    refine ⟨rfl, ?_, ?_, k, hk, hmin, hstrict, ?_⟩
    · intro q hq
      simp only [Option.some.injEq] at hq
      subst hq
      exact ⟨le_clamp _ _ _, clamp_le _ _ _ (by norm_num)⟩
    · intro q hq
      simp only [Option.some.injEq] at hq
      subst hq
      exact ⟨le_clamp _ _ _, clamp_le _ _ _ (by norm_num)⟩
    · constructor
      · rintro ⟨hu, -⟩; exact absurd hu (by simp)
      · intro h0; exact absurd h0 hd

/-- C10 as stated is false on the code: the degenerate (collinear)
single-triangle geometry has position and uv attributes and one triangle,
and the projector marks the result valid, yet neither returned component is
a number in `[0,1]`: in the source `invDenom = 1/0 = Infinity`, the
barycentric weights are `0 * Infinity = NaN`, and the NaN flows through
every clamp into the returned `u` and `v` (`none` in the embedding). -/
theorem c10_counterexample_degenerate_nan :
    3 ≤ exDegenGeometry.positions.length ∧
    (findClosestTriangleUVN exDegenGeometry exDegenPoint).valid = true ∧
    (findClosestTriangleUVN exDegenGeometry exDegenPoint).u = none ∧
    (findClosestTriangleUVN exDegenGeometry exDegenPoint).v = none ∧
    ¬ ∃ q, (findClosestTriangleUVN exDegenGeometry exDegenPoint).u = some q ∧
      0 ≤ q ∧ q ≤ 1 := by
  have hres : findClosestTriangleUVN exDegenGeometry exDegenPoint = ⟨none, none, true⟩ := by
    norm_num [findClosestTriangleUVN, exDegenGeometry, exDegenPoint, findLoopN, triBaryUVN,
      getBarycentricCoordsN, baryDenom, centroidDistSq, triangleCenter, clampN,
      vAt, uvAt, distSq, Vec3.add, Vec3.sub, Vec3.dot, Vec3.divideScalar, List.range,
      List.range.loop]
  rw [hres]
  refine ⟨by norm_num [exDegenGeometry], rfl, rfl, rfl, ?_⟩
  rintro ⟨q, hq, -⟩
  exact Option.noConfusion hq

/-- C4 (amended): the projector selects the first triangle whose centroid
attains the minimal distance to the query point, and returns the triangle's
UV corners interpolated by the clamped-and-renormalized barycentric
coordinates *of the query point itself* (`getBarycentricCoords point …`),
the interpolated components finally clamped into `[0,1]`. -/
theorem c4_projector_nearest_centroid_point_bary (g : Geometry) (uv : List Vec2) (p : Vec3)
    (huv : g.uvs = some uv) (h3 : 3 ≤ g.positions.length) :
    ∃ k, k < g.positions.length / 3 ∧
      (∀ j, j < g.positions.length / 3 →
        centroidDistSq g.positions p k ≤ centroidDistSq g.positions p j) ∧
      (∀ j, j < k → centroidDistSq g.positions p k < centroidDistSq g.positions p j) ∧
      findClosestTriangleUV g p =
        ⟨clamp (triBaryUV g.positions uv p k).1 0 1,
         clamp (triBaryUV g.positions uv p k).2 0 1, true⟩ := by
  have hone : 1 ≤ g.positions.length / 3 := by omega
  obtain ⟨k, hk, hmin, hstrict, heq⟩ :=
    findLoop_range_argmin g.positions uv p (g.positions.length / 3) hone
  refine ⟨k, hk, hmin, hstrict, ?_⟩
  unfold findClosestTriangleUV
  simp only [huv, heq]

/-- Witness for the amended C4 theorem at the concrete single-triangle
geometry. -/
theorem c4_projector_nearest_centroid_point_bary_witness :
    ∃ k, k < exTriGeometry.positions.length / 3 ∧
      (∀ j, j < exTriGeometry.positions.length / 3 →
        centroidDistSq exTriGeometry.positions exPoint k ≤
          centroidDistSq exTriGeometry.positions exPoint j) ∧
      (∀ j, j < k →
        centroidDistSq exTriGeometry.positions exPoint k <
          centroidDistSq exTriGeometry.positions exPoint j) ∧
      findClosestTriangleUV exTriGeometry exPoint =
        ⟨clamp (triBaryUV exTriGeometry.positions [⟨0, 0⟩, ⟨1, 0⟩, ⟨0, 1⟩] exPoint k).1 0 1,
         clamp (triBaryUV exTriGeometry.positions [⟨0, 0⟩, ⟨1, 0⟩, ⟨0, 1⟩] exPoint k).2 0 1,
         true⟩ :=
  c4_projector_nearest_centroid_point_bary exTriGeometry [⟨0, 0⟩, ⟨1, 0⟩, ⟨0, 1⟩] exPoint
    rfl (by norm_num [exTriGeometry])

/-- On the concrete counterexample input, the closest point of the triangle
`(0,0,0) (1,0,0) (0,1,0)` to `exPoint = (3,1,0)` really is the corner
`(1,0,0)`: the region-based algorithm returns it, and it minimizes the
distance over every point `s·(1,0,0) + t·(0,1,0)` of the triangle.  This
certifies the spec-modelled `closestPointOnTriangle` at the input used by
the counterexample. -/
theorem closestPointOnTriangle_exPoint_minimizes :
    closestPointOnTriangle exPoint ⟨0, 0, 0⟩ ⟨1, 0, 0⟩ ⟨0, 1, 0⟩ = ⟨1, 0, 0⟩ ∧
    ∀ s t : ℚ, 0 ≤ s → 0 ≤ t → s + t ≤ 1 →
      distSq exPoint ⟨1, 0, 0⟩ ≤ distSq exPoint ⟨s, t, 0⟩ := by
  constructor
  · norm_num [closestPointOnTriangle, exPoint, Vec3.sub, Vec3.dot, Vec3.add, Vec3.scale]
  · intro s t hs ht hst
    simp only [distSq, exPoint]
    nlinarith [sq_nonneg (s - 1), sq_nonneg t, sq_nonneg (s + t - 1)]

/-- C4 as stated is false on the code: for the single right triangle with
UV corners `(0,0) (1,0) (0,1)` and query point `(3,1,0)`, the code
interpolates with the barycentric weights of the query point and returns
`(1/2, 1/2)`, whereas interpolating with the barycentric weights of the
closest point on the triangle (the corner `(1,0,0)`) would return `(1, 0)`. -/
theorem c4_counterexample_projector :
    findClosestTriangleUV exTriGeometry exPoint ≠
      findClosestTriangleUVClaim exTriGeometry exPoint := by
  have h1 : findClosestTriangleUV exTriGeometry exPoint = ⟨1/2, 1/2, true⟩ := by
    norm_num [findClosestTriangleUV, exTriGeometry, exPoint, findLoop, triBaryUV,
      centroidDistSq, getBarycentricCoords, triangleCenter, clamp, jsMin, jsMax,
      vAt, uvAt, distSq, Vec3.add, Vec3.sub, Vec3.dot, Vec3.divideScalar, List.range,
      List.range.loop]
  have h2 : findClosestTriangleUVClaim exTriGeometry exPoint = ⟨1, 0, true⟩ := by
    norm_num [findClosestTriangleUVClaim, exTriGeometry, exPoint, findLoopClaim,
      triBaryUVClaim, centroidDistSq, getBarycentricCoords, closestPointOnTriangle,
      triangleCenter, clamp, jsMin, jsMax, vAt, uvAt, distSq, Vec3.add, Vec3.sub,
      Vec3.dot, Vec3.scale, Vec3.divideScalar, List.range, List.range.loop]
  rw [h1, h2]
  intro hcontra
  have := congrArg UVProjection.u hcontra
  norm_num at this

theorem mapGet_mapModify {α : Type} (l : List (ℕ × α)) (key : ℕ) (f : α → α) :
    mapGet (mapModify l key f) key = (mapGet l key).map f := by
  induction l with
  | nil => rfl
  | cons kv rest ih =>
    obtain ⟨k, v⟩ := kv
    by_cases h : k = key
    · simp [mapModify, mapGet, h]
    · simp [mapModify, mapGet, h, ih]

/-- C6: `updateDecalOpacity` fails with the not-found error on every
unknown decal id, and on every known id stores the opacity clamped into
`[0,1]`; in particular `-1/2` is stored as `0` and `5` as `1`. -/
theorem c6_updateDecalOpacity_clamps (decals : List (ℕ × DecalInstance)) (id : ℕ) (op : ℚ) :
    (mapGet decals id = none →
      updateDecalOpacity decals id op = .error "Decal not found") ∧
    (∀ d, mapGet decals id = some d →
      ∃ decals', updateDecalOpacity decals id op = .ok decals' ∧
        mapGet decals' id = some { d with opacity := clamp op 0 1 } ∧
        0 ≤ clamp op 0 1 ∧ clamp op 0 1 ≤ 1 ∧
        (op = -1/2 → clamp op 0 1 = 0) ∧ (op = 5 → clamp op 0 1 = 1)) := by
  constructor
  · intro h
    simp [updateDecalOpacity, h]
  · intro d h
    refine ⟨mapModify decals id fun d => { d with opacity := jsMax 0 (jsMin 1 op) },
      by simp [updateDecalOpacity, h], ?_, le_clamp _ _ _, clamp_le _ _ _ (by norm_num),
      ?_, ?_⟩
    · rw [mapGet_mapModify, h]
      rfl
    · rintro rfl
      norm_num [clamp, jsMin, jsMax]
    · rintro rfl
      norm_num [clamp, jsMin, jsMax]

/-- Witness for C6: concrete unknown-id failure and concrete clamping of
`-1/2` to `0` on a one-decal store. -/
theorem c6_updateDecalOpacity_clamps_witness :
    updateDecalOpacity [(7, exDecal)] 3 (-1/2) = .error "Decal not found" ∧
    ∃ decals', updateDecalOpacity [(7, exDecal)] 7 (-1/2) = .ok decals' ∧
      mapGet decals' 7 = some { exDecal with opacity := clamp (-1/2) 0 1 } ∧
      0 ≤ clamp (-1/2 : ℚ) 0 1 ∧ clamp (-1/2 : ℚ) 0 1 ≤ 1 ∧
      ((-1/2 : ℚ) = -1/2 → clamp (-1/2 : ℚ) 0 1 = 0) ∧
      ((-1/2 : ℚ) = 5 → clamp (-1/2 : ℚ) 0 1 = 1) :=
  ⟨(c6_updateDecalOpacity_clamps [(7, exDecal)] 3 (-1/2)).1 (by norm_num [mapGet]),
   (c6_updateDecalOpacity_clamps [(7, exDecal)] 7 (-1/2)).2 exDecal (by norm_num [mapGet])⟩

/-- C8 is false as stated: merging the single source material with emissive
`(1,0,0)` and emissive intensity `3` without overrides leaves the merged
material at the `MeshStandardMaterial` defaults (emissive `(0,0,0)`,
intensity `1`) instead of the arithmetic means (`(1,0,0)` and `3`). -/
theorem c8_counterexample_emissive_not_averaged :
    (setMaterialProperties mkMeshStandardMaterial [exEmissiveMat] none).emissive ≠
      exEmissiveMat.emissive ∧
    (setMaterialProperties mkMeshStandardMaterial [exEmissiveMat] none).emissiveIntensity ≠
      exEmissiveMat.emissiveIntensity := by
  constructor
  · intro h
    have := congrArg Color.r h
    norm_num [setMaterialProperties, mkMeshStandardMaterial, exEmissiveMat] at this
  · intro h
    norm_num [setMaterialProperties, mkMeshStandardMaterial, exEmissiveMat] at h

/-- C8 (amended): supplied overrides are applied directly to the merged
material; without overrides, roughness, metalness and color are the
arithmetic means over the source materials, while emissive and emissive
intensity are left at the merged material's existing (default) values. -/
theorem c8_amended_material_properties (target : MaterialRec)
    (mats : List MaterialRec) (o : MaterialOverrides) (_hne : mats ≠ []) :
    ((setMaterialProperties target mats (some o)).roughness =
        o.roughness.getD target.roughness ∧
     (setMaterialProperties target mats (some o)).metalness =
        o.metalness.getD target.metalness ∧
     (setMaterialProperties target mats (some o)).color = o.color.getD target.color ∧
     (setMaterialProperties target mats (some o)).emissive =
        o.emissive.getD target.emissive ∧
     (setMaterialProperties target mats (some o)).emissiveIntensity =
        o.emissiveIntensity.getD target.emissiveIntensity) ∧
    ((setMaterialProperties target mats none).roughness =
        (mats.map (·.roughness)).sum / mats.length ∧
     (setMaterialProperties target mats none).metalness =
        (mats.map (·.metalness)).sum / mats.length ∧
     (setMaterialProperties target mats none).color =
        ⟨(mats.map (·.color.r)).sum / mats.length,
         (mats.map (·.color.g)).sum / mats.length,
         (mats.map (·.color.b)).sum / mats.length⟩ ∧
     (setMaterialProperties target mats none).emissive = target.emissive ∧
     (setMaterialProperties target mats none).emissiveIntensity =
        target.emissiveIntensity) := by
  constructor
  · obtain ⟨r, m, c, e, i⟩ := o
    cases r <;> cases m <;> cases c <;> cases e <;> cases i <;>
      simp [setMaterialProperties, Option.getD]
  · refine ⟨rfl, rfl, rfl, rfl, rfl⟩

/-- Witness for the amended C8 theorem: a supplied roughness override of
`1/4` is applied directly, and without overrides the merged roughness is
the mean `3/4` of the two concrete sources. -/
theorem c8_amended_material_properties_witness :
    (setMaterialProperties mkMeshStandardMaterial [exEmissiveMat, mkMeshStandardMaterial]
        (some ⟨some (1/4), none, none, none, none⟩)).roughness = 1/4 ∧
    (setMaterialProperties mkMeshStandardMaterial [exEmissiveMat, mkMeshStandardMaterial]
        none).roughness = 3/4 := by
  have h1 := c8_amended_material_properties mkMeshStandardMaterial
    [exEmissiveMat, mkMeshStandardMaterial] ⟨some (1/4), none, none, none, none⟩ (by simp)
  constructor
  · rw [h1.1.1]; rfl
  · rw [h1.2.1]; norm_num [exEmissiveMat, mkMeshStandardMaterial]

/-- Witness for the amended C10 theorem at the concrete non-degenerate
single-triangle geometry. -/
theorem c10_projector_valid_and_range_or_nan_witness :
    (findClosestTriangleUVN exTriGeometry exPoint).valid = true ∧
    (∀ q, (findClosestTriangleUVN exTriGeometry exPoint).u = some q → 0 ≤ q ∧ q ≤ 1) ∧
    (∀ q, (findClosestTriangleUVN exTriGeometry exPoint).v = some q → 0 ≤ q ∧ q ≤ 1) ∧
    ∃ k, k < exTriGeometry.positions.length / 3 ∧
      (∀ j, j < exTriGeometry.positions.length / 3 →
        centroidDistSq exTriGeometry.positions exPoint k ≤
          centroidDistSq exTriGeometry.positions exPoint j) ∧
      (∀ j, j < k →
        centroidDistSq exTriGeometry.positions exPoint k <
          centroidDistSq exTriGeometry.positions exPoint j) ∧
      (((findClosestTriangleUVN exTriGeometry exPoint).u = none ∧
        (findClosestTriangleUVN exTriGeometry exPoint).v = none) ↔
        baryDenom (vAt exTriGeometry.positions (k * 3))
          (vAt exTriGeometry.positions (k * 3 + 1))
          (vAt exTriGeometry.positions (k * 3 + 2)) = 0) :=
  c10_projector_valid_and_range_or_nan exTriGeometry [⟨0, 0⟩, ⟨1, 0⟩, ⟨0, 1⟩] exPoint
    rfl (by norm_num [exTriGeometry])

theorem updTri_out (box : PackBox) (A : ℚ) (t : ℕ) (f : ℕ → ℚ) (idx : ℕ)
    (h : ¬(6 * t ≤ idx ∧ idx < 6 * t + 6)) : updTri box A t f idx = f idx := by
  simp only [updTri, if_neg h]

theorem updateTriangles_out (box : PackBox) (A : ℚ) (tris : List ℕ) (f : ℕ → ℚ) (idx : ℕ)
    (h : ∀ t ∈ tris, ¬(6 * t ≤ idx ∧ idx < 6 * t + 6)) :
    updateTriangles box A tris f idx = f idx := by
  induction tris generalizing f with
  | nil => rfl
  | cons t rest ih =>
    simp only [updateTriangles]
    rw [ih (updTri box A t f) fun t' ht' => h t' (List.mem_cons_of_mem _ ht')]
    exact updTri_out box A t f idx (h t (List.mem_cons_self _ _))

theorem updateTriangles_mem (box : PackBox) (A : ℚ) (tris : List ℕ) (t k : ℕ)
    (hk : k < 6) (ht : t ∈ tris) (hnd : tris.Nodup) (f : ℕ → ℚ) :
    updateTriangles box A tris f (6 * t + k) =
      (if k % 2 = 0 then f (6 * t + k) * (box.w / A) + box.x / A
       else f (6 * t + k) * (box.h / A) + box.y / A) := by
  induction tris generalizing f with
  | nil => cases ht
  | cons t' rest ih =>
    simp only [updateTriangles]
    rcases List.mem_cons.mp ht with rfl | hmem
    · have hnot : t ∉ rest := (List.nodup_cons.mp hnd).1
      rw [updateTriangles_out box A rest _ _ ?_]
      · have hin : 6 * t ≤ 6 * t + k ∧ 6 * t + k < 6 * t + 6 := by omega
        have hmod : (6 * t + k) % 2 = k % 2 := by omega
        simp only [updTri, if_pos hin, hmod]
      · intro t'' ht''
        intro hcontra
        have : t'' = t := by omega
        exact hnot (this ▸ ht'')
    · have hne : t' ≠ t := by
        rintro rfl
        exact (List.nodup_cons.mp hnd).1 hmem
      rw [ih hmem (List.nodup_cons.mp hnd).2 (updTri box A t' f)]
      have : updTri box A t' f (6 * t + k) = f (6 * t + k) := by
        apply updTri_out
        intro hcontra
        exact hne (by omega)
      rw [this]

theorem updateUVLoop_out (mapping : ℕ → Option (List ℕ)) (layout : List PackBox) (A : ℚ)
    (ms : List ℕ) (i0 : ℕ) (f : ℕ → ℚ) (idx : ℕ)
    (h : ∀ m ∈ ms, ∀ tris, mapping m = some tris →
      ∀ t ∈ tris, ¬(6 * t ≤ idx ∧ idx < 6 * t + 6)) :
    updateUVLoop mapping layout A ms i0 f idx = f idx := by
  induction ms generalizing i0 f with
  | nil => rfl
  | cons m rest ih =>
    simp only [updateUVLoop]
    rw [ih (i0 + 1) _ fun m' hm' => h m' (List.mem_cons_of_mem _ hm')]
    cases hmap : mapping m with
    | none => rfl
    | some tris =>
      exact updateTriangles_out _ A tris f idx
        (h m (List.mem_cons_self _ _) tris hmap)

theorem updateUVLoop_append (mapping : ℕ → Option (List ℕ)) (layout : List PackBox) (A : ℚ)
    (l1 l2 : List ℕ) (i0 : ℕ) (f : ℕ → ℚ) :
    updateUVLoop mapping layout A (l1 ++ l2) i0 f =
      updateUVLoop mapping layout A l2 (i0 + l1.length) (updateUVLoop mapping layout A l1 i0 f) := by
  induction l1 generalizing i0 f with
  | nil => simp [updateUVLoop]
  | cons m rest ih =>
    simp only [List.cons_append, updateUVLoop, List.length_cons, List.append_eq]
    rw [ih (i0 + 1)]
    have harith : i0 + 1 + rest.length = i0 + (rest.length + 1) := by omega
    rw [harith]

theorem list_drop_get {α : Type} (l : List α) (i : ℕ) (a : α) (h : l.get? i = some a) :
    l.drop i = a :: l.drop (i + 1) := by
  induction l generalizing i with
  | nil => simp [List.get?] at h
  | cons b rest ih =>
    cases i with
    | zero => simp_all [List.get?]
    | succ j =>
      simp only [List.get?] at h
      simpa using ih j h

/-- C2: for every triangle `t` assigned to the material at position `mi`
(and to no other material), each of its six flat UV slots is rewritten as
`u' = u * (rectW/atlasSize) + rectX/atlasSize` (even slots) and
`v' = v * (rectH/atlasSize) + rectY/atlasSize` (odd slots) using that
material's packed rectangle; the UV slots of a triangle assigned to no
material in the mapping are left unchanged. -/
theorem c2_updateUVCoordinates_rewrite (materials : List ℕ) (mapping : ℕ → Option (List ℕ))
    (layout : List PackBox) (A : ℚ) (uvArr : ℕ → ℚ) :
    (∀ mi m tris t, materials.get? mi = some m → mapping m = some tris →
      t ∈ tris → tris.Nodup →
      (∀ j m' tris', j ≠ mi → materials.get? j = some m' →
        mapping m' = some tris' → t ∉ tris') →
      ∀ k, k < 6 →
        updateUVCoordinates materials mapping layout A uvArr (6 * t + k) =
          (if k % 2 = 0 then
            uvArr (6 * t + k) * ((layout.getD mi ⟨0, 0, 0, 0⟩).w / A) +
              (layout.getD mi ⟨0, 0, 0, 0⟩).x / A
          else
            uvArr (6 * t + k) * ((layout.getD mi ⟨0, 0, 0, 0⟩).h / A) +
              (layout.getD mi ⟨0, 0, 0, 0⟩).y / A)) ∧
    (∀ t, (∀ j m' tris', materials.get? j = some m' → mapping m' = some tris' → t ∉ tris') →
      ∀ k, k < 6 →
        updateUVCoordinates materials mapping layout A uvArr (6 * t + k) =
          uvArr (6 * t + k)) := by
  constructor
  · intro mi m tris t hm htris ht hnd hothers k hk
    have hlt : mi < materials.length := (List.get?_eq_some.mp hm).1
    have hsplit : materials = materials.take mi ++ (m :: materials.drop (mi + 1)) := by
      conv_lhs => rw [← List.take_append_drop mi materials]
      rw [list_drop_get materials mi m hm]
    have hlen : (materials.take mi).length = mi := by
      rw [List.length_take]; omega
    unfold updateUVCoordinates
    rw [hsplit, updateUVLoop_append, hlen]
    simp only [updateUVLoop, zero_add, htris]
    have houter : updateUVLoop mapping layout A (materials.drop (mi + 1)) (mi + 1)
        (updateTriangles (layout.getD mi ⟨0, 0, 0, 0⟩) A tris
          (updateUVLoop mapping layout A (materials.take mi) 0 uvArr)) (6 * t + k) =
        updateTriangles (layout.getD mi ⟨0, 0, 0, 0⟩) A tris
          (updateUVLoop mapping layout A (materials.take mi) 0 uvArr) (6 * t + k) := by
      apply updateUVLoop_out
      intro m' hm' tris' htris' t' ht' hrange
      obtain ⟨j, hj⟩ := List.mem_iff_get?.mp hm'
      rw [List.get?_drop] at hj
      have hne : mi + 1 + j ≠ mi := by omega
      have : t' = t := by omega
      exact hothers (mi + 1 + j) m' tris' hne hj htris' (this ▸ ht')
    have hinner : updateUVLoop mapping layout A (materials.take mi) 0 uvArr (6 * t + k) =
        uvArr (6 * t + k) := by
      apply updateUVLoop_out
      intro m' hm' tris' htris' t' ht' hrange
      obtain ⟨j, hj⟩ := List.mem_iff_get?.mp hm'
      have hjlt : j < mi := by
        have := (List.get?_eq_some.mp hj).1
        omega
      rw [List.get?_take hjlt] at hj
      have : t' = t := by omega
      exact hothers j m' tris' (by omega) hj htris' (this ▸ ht')
    rw [houter, updateTriangles_mem _ A tris t k hk ht hnd, hinner]
  · intro t hnone k hk
    apply updateUVLoop_out
    intro m' hm' tris' htris' t' ht' hrange
    obtain ⟨j, hj⟩ := List.mem_iff_get?.mp hm'
    have : t' = t := by omega
    exact hnone j m' tris' hj htris' (this ▸ ht')

/-- Witness for C2: with a 4-pixel atlas and the rectangle `(0,0,2,2)` for
material `10`, slot `0` (the u of triangle 0's first vertex, originally
`1`) is rewritten to `1 * (2/4) + 0/4 = 1/2`, while slot `12` (triangle
`2`, assigned to no material) stays `1`. -/
theorem c2_updateUVCoordinates_rewrite_witness :
    updateUVCoordinates [10, 11] exMapping [⟨0, 0, 2, 2⟩, ⟨2, 0, 2, 2⟩] 4 (fun _ => 1) 0 = 1/2 ∧
    updateUVCoordinates [10, 11] exMapping [⟨0, 0, 2, 2⟩, ⟨2, 0, 2, 2⟩] 4 (fun _ => 1) 12 = 1 := by
  constructor
  · have h := (c2_updateUVCoordinates_rewrite [10, 11] exMapping
      [⟨0, 0, 2, 2⟩, ⟨2, 0, 2, 2⟩] 4 (fun _ => 1)).1 0 10 [0] 0 rfl rfl
      (by simp) (by simp) ?hothers 0 (by norm_num)
    case hothers =>
      intro j m' tris' hne hj htris'
      have hlt : j < 2 := by
        have := (List.get?_eq_some.mp hj).1
        simpa using this
      interval_cases j
      · exact absurd rfl hne
      · simp only [List.get?] at hj
        injection hj with hj
        subst hj
        have htris2 : tris' = [1] := by simpa [exMapping] using htris'.symm
        subst htris2
        simp
    norm_num at h
    rw [h]
  · have h := (c2_updateUVCoordinates_rewrite [10, 11] exMapping
      [⟨0, 0, 2, 2⟩, ⟨2, 0, 2, 2⟩] 4 (fun _ => 1)).2 2 ?hnone 0 (by norm_num)
    case hnone =>
      intro j m' tris' hj htris'
      have hlt : j < 2 := by
        have := (List.get?_eq_some.mp hj).1
        simpa using this
      interval_cases j
      · simp only [List.get?] at hj
        injection hj with hj
        subst hj
        have htris2 : tris' = [0] := by simpa [exMapping] using htris'.symm
        subst htris2
        simp
      · simp only [List.get?] at hj
        injection hj with hj
        subst hj
        have htris2 : tris' = [1] := by simpa [exMapping] using htris'.symm
        subst htris2
        simp
    norm_num at h
    exact h

theorem jsFloor_le (q : ℚ) : jsFloor q ≤ q := Int.floor_le q

theorem jsFloor_nonneg (q : ℚ) (h : 0 ≤ q) : 0 ≤ jsFloor q := by
  unfold jsFloor
  exact_mod_cast Int.floor_nonneg.mpr h

/-- C3: the packing layout is deterministic — equal input lists (same
order, same sizes) and the same atlas size give the identical layout.  The
embedding is a pure function; the source consults no clock, randomness or
other ambient state on this path. -/
theorem c3_generatePackingLayout_deterministic (images1 images2 : List (ℕ × ℕ))
    (A : ℚ) (h : images1 = images2) :
    generatePackingLayout images1 A = generatePackingLayout images2 A := by
  subst h; rfl

/-- Witness for C3 on a concrete two-box list. -/
theorem c3_generatePackingLayout_deterministic_witness :
    generatePackingLayout [(2, 2), (2, 2)] 4 = generatePackingLayout [(2, 2), (2, 2)] 4 :=
  c3_generatePackingLayout_deterministic [(2, 2), (2, 2)] [(2, 2), (2, 2)] 4 rfl

theorem jsMax_eq_left (a b : ℚ) (h : b ≤ a) : jsMax a b = a := by
  unfold jsMax; split
  · exact le_antisymm h (by assumption)
  · rfl

theorem jsMax_eq_right (a b : ℚ) (h : a ≤ b) : jsMax a b = b := by
  unfold jsMax; split
  · rfl
  · exact absurd h (by assumption)

theorem jsMin_pos (a b : ℚ) (ha : 0 < a) (hb : 0 < b) : 0 < jsMin a b := by
  unfold jsMin; split <;> assumption

/-- C7: after bin-packing, every box is scaled by the single uniform factor
`scale = min(atlasSize / boundingW, atlasSize / boundingH)` applied to its
`w`, `h`, `x` and `y` with each result floored; boxes inside the bounding
box land inside the `[0, atlasSize]` square, and the larger scaled bounding
dimension equals the atlas size exactly. -/
theorem c7_scaleBoxes_uniform_floor (placed : List PlacedBox) (W H : ℕ) (A : ℚ)
    (hA : 0 < A) (hW : 0 < W) (hH : 0 < H) :
    (∀ i b, placed.get? i = some b →
      (scaleBoxes placed W H A).get? i =
        some ⟨jsFloor (b.x * jsMin (A / W) (A / H)),
              jsFloor (b.y * jsMin (A / W) (A / H)),
              jsFloor (b.w * jsMin (A / W) (A / H)),
              jsFloor (b.h * jsMin (A / W) (A / H))⟩) ∧
    (∀ i b, placed.get? i = some b → b.x + b.w ≤ W → b.y + b.h ≤ H →
      ∀ sb, (scaleBoxes placed W H A).get? i = some sb →
        0 ≤ sb.x ∧ 0 ≤ sb.y ∧ sb.x + sb.w ≤ A ∧ sb.y + sb.h ≤ A) ∧
    jsMax ((W : ℚ) * jsMin (A / W) (A / H)) ((H : ℚ) * jsMin (A / W) (A / H)) = A := by
  have hWq : (0 : ℚ) < (W : ℚ) := by exact_mod_cast hW
  have hHq : (0 : ℚ) < (H : ℚ) := by exact_mod_cast hH
  have hs : 0 < jsMin (A / W) (A / H) := jsMin_pos _ _ (by positivity) (by positivity)
  have hmap : ∀ i b, placed.get? i = some b →
      (scaleBoxes placed W H A).get? i =
        some ⟨jsFloor (b.x * jsMin (A / W) (A / H)),
              jsFloor (b.y * jsMin (A / W) (A / H)),
              jsFloor (b.w * jsMin (A / W) (A / H)),
              jsFloor (b.h * jsMin (A / W) (A / H))⟩ := by
    intro i b hb
    unfold scaleBoxes
    rw [List.get?_map, hb]
    rfl
  have hWs : (W : ℚ) * jsMin (A / W) (A / H) ≤ A := by
    calc (W : ℚ) * jsMin (A / W) (A / H) ≤ (W : ℚ) * (A / W) :=
          mul_le_mul_of_nonneg_left (jsMin_le_left _ _) (le_of_lt hWq)
      _ = A := by field_simp
  have hHs : (H : ℚ) * jsMin (A / W) (A / H) ≤ A := by
    have hmin : jsMin (A / W) (A / H) ≤ A / H := by
      unfold jsMin; split
      · assumption
      · exact le_refl _
    calc (H : ℚ) * jsMin (A / W) (A / H) ≤ (H : ℚ) * (A / H) :=
          mul_le_mul_of_nonneg_left hmin (le_of_lt hHq)
      _ = A := by field_simp
  refine ⟨hmap, ?_, ?_⟩
  · intro i b hb hxw hyh sb hsb
    rw [hmap i b hb] at hsb
    injection hsb with hsb
    subst hsb
    have hxA : jsFloor (b.x * jsMin (A / W) (A / H)) + jsFloor (b.w * jsMin (A / W) (A / H)) ≤ A := by
      have h1 : (b.x : ℚ) * jsMin (A / W) (A / H) + (b.w : ℚ) * jsMin (A / W) (A / H) ≤ A := by
        have hle : ((b.x : ℚ) + (b.w : ℚ)) ≤ (W : ℚ) := by exact_mod_cast hxw
        calc (b.x : ℚ) * jsMin (A / W) (A / H) + (b.w : ℚ) * jsMin (A / W) (A / H)
            = ((b.x : ℚ) + (b.w : ℚ)) * jsMin (A / W) (A / H) := by ring
          _ ≤ (W : ℚ) * jsMin (A / W) (A / H) :=
              mul_le_mul_of_nonneg_right hle (le_of_lt hs)
          _ ≤ A := hWs
      calc jsFloor (b.x * jsMin (A / W) (A / H)) + jsFloor (b.w * jsMin (A / W) (A / H))
          ≤ (b.x : ℚ) * jsMin (A / W) (A / H) + (b.w : ℚ) * jsMin (A / W) (A / H) :=
            add_le_add (jsFloor_le _) (jsFloor_le _)
        _ ≤ A := h1
    have hyA : jsFloor (b.y * jsMin (A / W) (A / H)) + jsFloor (b.h * jsMin (A / W) (A / H)) ≤ A := by
      have h1 : (b.y : ℚ) * jsMin (A / W) (A / H) + (b.h : ℚ) * jsMin (A / W) (A / H) ≤ A := by
        have hle : ((b.y : ℚ) + (b.h : ℚ)) ≤ (H : ℚ) := by exact_mod_cast hyh
        calc (b.y : ℚ) * jsMin (A / W) (A / H) + (b.h : ℚ) * jsMin (A / W) (A / H)
            = ((b.y : ℚ) + (b.h : ℚ)) * jsMin (A / W) (A / H) := by ring
          _ ≤ (H : ℚ) * jsMin (A / W) (A / H) :=
              mul_le_mul_of_nonneg_right hle (le_of_lt hs)
          _ ≤ A := hHs
      calc jsFloor (b.y * jsMin (A / W) (A / H)) + jsFloor (b.h * jsMin (A / W) (A / H))
          ≤ (b.y : ℚ) * jsMin (A / W) (A / H) + (b.h : ℚ) * jsMin (A / W) (A / H) :=
            add_le_add (jsFloor_le _) (jsFloor_le _)
        _ ≤ A := h1
    exact ⟨jsFloor_nonneg _ (by positivity), jsFloor_nonneg _ (by positivity), hxA, hyA⟩
  · by_cases hcase : A / (W : ℚ) ≤ A / (H : ℚ)
    · have hmin : jsMin (A / W) (A / H) = A / W := by unfold jsMin; rw [if_pos hcase]
      rw [hmin]
      have h1 : (W : ℚ) * (A / W) = A := by field_simp
      rw [h1]
      apply jsMax_eq_left
      have : (H : ℚ) * (A / W) ≤ (H : ℚ) * (A / H) :=
        mul_le_mul_of_nonneg_left hcase (le_of_lt hHq)
      calc (H : ℚ) * (A / W) ≤ (H : ℚ) * (A / H) := this
        _ = A := by field_simp
    · have hmin : jsMin (A / W) (A / H) = A / H := by unfold jsMin; rw [if_neg hcase]
      rw [hmin]
      have h1 : (H : ℚ) * (A / H) = A := by field_simp
      rw [h1]
      apply jsMax_eq_right
      have hle : A / (H : ℚ) ≤ A / (W : ℚ) := le_of_not_le hcase
      have : (W : ℚ) * (A / H) ≤ (W : ℚ) * (A / W) :=
        mul_le_mul_of_nonneg_left hle (le_of_lt hWq)
      calc (W : ℚ) * (A / H) ≤ (W : ℚ) * (A / W) := this
        _ = A := by field_simp

/-- Witness for C7 on the concrete two-box packing `[(0,0,2,2), (0,2,2,2)]`
with bounding box `2 × 4` and atlas size `4` (scale `= min(2,1) = 1`). -/
theorem c7_scaleBoxes_uniform_floor_witness :
    (scaleBoxes [⟨0, 0, 2, 2⟩, ⟨0, 2, 2, 2⟩] 2 4 4).get? 1 = some ⟨0, 2, 2, 2⟩ ∧
    (0 ≤ (PackBox.mk 0 2 2 2).x ∧ 0 ≤ (PackBox.mk 0 2 2 2).y ∧
      (PackBox.mk 0 2 2 2).x + (PackBox.mk 0 2 2 2).w ≤ 4 ∧
      (PackBox.mk 0 2 2 2).y + (PackBox.mk 0 2 2 2).h ≤ 4) ∧
    jsMax (((2 : ℕ) : ℚ) * jsMin (4 / ((2 : ℕ) : ℚ)) (4 / ((4 : ℕ) : ℚ)))
      (((4 : ℕ) : ℚ) * jsMin (4 / ((2 : ℕ) : ℚ)) (4 / ((4 : ℕ) : ℚ))) = 4 := by
  have h := c7_scaleBoxes_uniform_floor [⟨0, 0, 2, 2⟩, ⟨0, 2, 2, 2⟩] 2 4 4
    (by norm_num) (by norm_num) (by norm_num)
  have hget : (scaleBoxes [⟨0, 0, 2, 2⟩, ⟨0, 2, 2, 2⟩] 2 4 4).get? 1 = some ⟨0, 2, 2, 2⟩ := by
    rw [h.1 1 ⟨0, 2, 2, 2⟩ rfl]
    norm_num [jsFloor, jsMin]
  refine ⟨hget, ?_, h.2.2⟩
  exact h.2.1 1 ⟨0, 2, 2, 2⟩ rfl (by norm_num) (by norm_num) ⟨0, 2, 2, 2⟩ hget

theorem transformedGeometry_positions_length (t : TransformM) (m : Mesh) :
    (transformedGeometry t m).positions.length = expandedVertexCount m.geometry := by
  unfold transformedGeometry applyTransformToGeometry applyMat4ToGeometry
    ensureNonIndexed toNonIndexed expandedVertexCount
  cases m.geometry.index <;> simp

theorem transformedGeometry_index (t : TransformM) (m : Mesh) :
    (transformedGeometry t m).index = none := by
  unfold transformedGeometry applyTransformToGeometry applyMat4ToGeometry
    ensureNonIndexed toNonIndexed
  cases h : m.geometry.index <;> simp [h]

theorem ensureUVAttribute_fields (g : Geometry) :
    (ensureUVAttribute g).positions = g.positions ∧
    (ensureUVAttribute g).normals = g.normals ∧
    (ensureUVAttribute g).index = g.index ∧
    (ensureUVAttribute g).uvs.isSome = true := by
  unfold ensureUVAttribute
  cases h : g.uvs <;> simp [h]

theorem ensureNormalAttribute_fields (g : Geometry) :
    (ensureNormalAttribute g).positions = g.positions ∧
    (ensureNormalAttribute g).uvs = g.uvs ∧
    (ensureNormalAttribute g).index = g.index ∧
    (ensureNormalAttribute g).normals.isSome = true := by
  unfold ensureNormalAttribute computeVertexNormals
  cases h : g.normals <;> simp [h]

theorem processMesh_geometries (t : TransformM) (acc : MergeAcc) (m : Mesh) :
    (processMesh t acc m).geometries = acc.geometries ++ [transformedGeometry t m] := by
  unfold processMesh
  cases mapGet acc.materialMapping m.materialId <;> rfl

theorem meshes_foldl_geometries (t : TransformM) (meshes : List Mesh) (acc : MergeAcc) :
    (meshes.foldl (processMesh t) acc).geometries =
      acc.geometries ++ meshes.map (transformedGeometry t) := by
  induction meshes generalizing acc with
  | nil => simp
  | cons m rest ih =>
    simp only [List.foldl_cons, List.map_cons]
    rw [ih, processMesh_geometries]
    simp

theorem pairs_foldl_geometries (pairs : List (Scene × TransformM)) (acc : MergeAcc) :
    (pairs.foldl (fun acc st => st.1.meshes.foldl (processMesh st.2) acc) acc).geometries =
      acc.geometries ++ (pairs.map fun st => st.1.meshes.map (transformedGeometry st.2)).flatten := by
  induction pairs generalizing acc with
  | nil => simp
  | cons p rest ih =>
    simp only [List.foldl_cons, List.map_cons, List.flatten_cons]
    rw [ih, meshes_foldl_geometries]
    simp

theorem normalized_geometry_fields (g : Geometry) :
    (ensureNormalAttribute (ensureUVAttribute g)).positions = g.positions ∧
    (ensureNormalAttribute (ensureUVAttribute g)).normals.isSome = true ∧
    (ensureNormalAttribute (ensureUVAttribute g)).uvs.isSome = true ∧
    (ensureNormalAttribute (ensureUVAttribute g)).index = g.index := by
  have h1 := ensureUVAttribute_fields g
  have h2 := ensureNormalAttribute_fields (ensureUVAttribute g)
  refine ⟨h2.1.trans h1.1, h2.2.2.2, ?_, h2.2.2.1.trans h1.2.2.1⟩
  rw [h2.2.1]
  exact h1.2.2.2

theorem sum_mesh_list (t : TransformM) (meshes : List Mesh)
    (h : ∀ m ∈ meshes, expandedVertexCount m.geometry = 3) :
    ((meshes.map (transformedGeometry t)).map fun g => g.positions.length).sum =
      3 * (meshes.map meshTriangleCount).sum := by
  induction meshes with
  | nil => simp
  | cons m rest ih =>
    simp only [List.map_cons, List.sum_cons]
    rw [ih fun m' hm' => h m' (List.mem_cons_of_mem _ hm')]
    rw [transformedGeometry_positions_length, h m (List.mem_cons_self _ _)]
    unfold meshTriangleCount
    rw [h m (List.mem_cons_self _ _)]
    ring

theorem sum_pair_list (pairs : List (Scene × TransformM))
    (h : ∀ st ∈ pairs, ∀ m ∈ st.1.meshes, expandedVertexCount m.geometry = 3) :
    ((pairs.map fun st => st.1.meshes.map (transformedGeometry st.2)).flatten.map
       fun g => g.positions.length).sum =
    3 * (pairs.map fun st => (st.1.meshes.map meshTriangleCount).sum).sum := by
  induction pairs with
  | nil => simp
  | cons st rest ih =>
    simp only [List.map_cons, List.flatten_cons, List.map_append, List.sum_append,
      List.sum_cons]
    rw [ih fun st' h' m hm => h st' (List.mem_cons_of_mem _ h') m hm]
    rw [sum_mesh_list st.2 st.1.meshes fun m hm => h st (List.mem_cons_self _ _) m hm]
    ring

/-- C1: merging any non-empty collection of scenes whose meshes are single
triangles succeeds and yields a merged geometry whose vertex count is the
sum of the input triangle counts times 3 (indexed geometries counted after
expansion to non-indexed triangle soup). -/
theorem c1_merge_vertex_count (scenes : List Scene) (transforms : List TransformM)
    (hlen : transforms.length = scenes.length)
    (hmesh : 1 ≤ (scenes.map fun s => s.meshes.length).sum)
    (htri : ∀ s ∈ scenes, ∀ m ∈ s.meshes, expandedVertexCount m.geometry = 3) :
    ∃ r, geometryMergerMerge scenes transforms = .ok r ∧
      r.geometry.positions.length =
        3 * (scenes.map fun s => (s.meshes.map meshTriangleCount).sum).sum := by
  have hfst : (scenes.zip transforms).map Prod.fst = scenes :=
    List.map_fst_zip scenes transforms (by omega)
  set pairs := scenes.zip transforms with hpairs
  set G := (pairs.map fun st => st.1.meshes.map (transformedGeometry st.2)).flatten with hGdef
  have hmemscene : ∀ st ∈ pairs, st.1 ∈ scenes := by
    intro st hst
    rw [← hfst]
    exact List.mem_map_of_mem Prod.fst hst
  have hGmem : ∀ g ∈ G, ∃ st ∈ pairs, ∃ m ∈ st.1.meshes, g = transformedGeometry st.2 m := by
    intro g hg
    obtain ⟨l, hl, hgl⟩ := List.mem_flatten.mp hg
    obtain ⟨st, hst, rfl⟩ := List.mem_map.mp hl
    obtain ⟨m, hm, rfl⟩ := List.mem_map.mp hgl
    exact ⟨st, hst, m, hm, rfl⟩
  have hGlen : G.length = (scenes.map fun s => s.meshes.length).sum := by
    rw [hGdef, List.length_flatten, List.map_map]
    have hfun : ((fun l : List Geometry => l.length) ∘ fun st : Scene × TransformM =>
        st.1.meshes.map (transformedGeometry st.2)) =
        (fun s : Scene => s.meshes.length) ∘ Prod.fst := by
      funext st
      simp
    rw [hfun, ← List.map_map, hfst]
  have hGne : G.isEmpty = false := by
    rw [List.isEmpty_eq_false_iff_exists_mem]
    have hpos : 0 < G.length := by omega
    exact List.exists_mem_of_length_pos hpos
  have hGsum : (G.map fun g => g.positions.length).sum =
      3 * (scenes.map fun s => (s.meshes.map meshTriangleCount).sum).sum := by
    rw [hGdef]
    have hsp := sum_pair_list pairs fun st hst m hm => htri st.1 (hmemscene st hst) m hm
    rw [hsp, ← hfst, List.map_map]
    rfl
  set NG := normalizeGeometryAttributes G with hNG
  have hNGisEmpty : NG.isEmpty = false := by
    rw [hNG]
    unfold normalizeGeometryAttributes
    cases hG : G with
    | nil => rw [hG] at hGne; simp at hGne
    | cons a l => simp
  have hcond : (NG.all fun g => g.normals.isSome && g.uvs.isSome && g.index.isNone) = true := by
    rw [List.all_eq_true]
    intro g hg
    rw [hNG] at hg
    unfold normalizeGeometryAttributes at hg
    obtain ⟨g0, hg0, rfl⟩ := List.mem_map.mp hg
    obtain ⟨st, hst, m, hm, rfl⟩ := hGmem g0 hg0
    have hf := normalized_geometry_fields (transformedGeometry st.2 m)
    rw [Bool.and_eq_true, Bool.and_eq_true]
    refine ⟨⟨hf.2.1, hf.2.2.1⟩, ?_⟩
    rw [hf.2.2.2, transformedGeometry_index]
    rfl
  have hmerge : mergeGeometries NG =
      some { positions := (NG.map (·.positions)).flatten
             normals := some ((NG.map fun g => g.normals.getD []).flatten)
             uvs := some ((NG.map fun g => g.uvs.getD []).flatten)
             index := none } := by
    unfold mergeGeometries
    rw [hNGisEmpty, hcond]
    simp
  have hmlen : ((NG.map (·.positions)).flatten).length =
      3 * (scenes.map fun s => (s.meshes.map meshTriangleCount).sum).sum := by
    rw [List.length_flatten, List.map_map, ← hGsum, hNG]
    unfold normalizeGeometryAttributes
    rw [List.map_map]
    congr 1
    apply List.map_congr_left
    intro g hg
    simp only [Function.comp]
    rw [(normalized_geometry_fields g).1]
  obtain ⟨r, hr1, hr2⟩ : ∃ r, geometryMergerMerge scenes transforms = .ok r ∧
      r.geometry.positions = (NG.map (·.positions)).flatten := by
    simp only [geometryMergerMerge]
    rw [← hpairs]
    have haccg : (pairs.foldl (fun acc st => st.1.meshes.foldl (processMesh st.2) acc)
        (⟨[], [], [], 0⟩ : MergeAcc)).geometries = G := by
      rw [pairs_foldl_geometries]
      simp [hGdef]
    rw [haccg, hGne]
    simp only [Bool.false_eq_true, if_false]
    rw [← hNG, hmerge]
    exact ⟨_, rfl, rfl⟩
  exact ⟨r, hr1, by rw [hr2]; exact hmlen⟩

/-- Witness for C1: two scenes, each with one single-triangle mesh (one of
them indexed), merge into a 6-vertex geometry: `3 * (1 + 1)`. -/
theorem c1_merge_vertex_count_witness :
    ∃ r, geometryMergerMerge [⟨[exMeshA]⟩, ⟨[exMeshB]⟩] [defaultTransform, defaultTransform] =
        .ok r ∧
      r.geometry.positions.length =
        3 * (([⟨[exMeshA]⟩, ⟨[exMeshB]⟩] : List Scene).map
          fun s => (s.meshes.map meshTriangleCount).sum).sum :=
  c1_merge_vertex_count [⟨[exMeshA]⟩, ⟨[exMeshB]⟩] [defaultTransform, defaultTransform]
    rfl
    (by simp)
    (by
      intro s hs m hm
      rcases List.mem_cons.mp hs with rfl | hs
      · rcases List.mem_singleton.mp hm with rfl
        rfl
      · rcases List.mem_singleton.mp hs with rfl
        rcases List.mem_singleton.mp hm with rfl
        rfl)

theorem bakeOne_stores (opts : MergeOptionsM) (mm : List (ℕ × (Mesh × ℕ)))
    (st : MergerState) (g : ℕ × List DecalInstance) :
    (bakeOne opts mm st g).models = st.models ∧
    (bakeOne opts mm st g).decals = st.decals ∧
    (bakeOne opts mm st g).mergedMesh = st.mergedMesh := by
  refine ⟨?_, ?_, ?_⟩ <;> (unfold bakeOne; repeat (first | rfl | split | dsimp only))

theorem foldl_bakeOne_stores (opts : MergeOptionsM) (mm : List (ℕ × (Mesh × ℕ)))
    (groups : List (ℕ × List DecalInstance)) (st : MergerState) :
    (groups.foldl (bakeOne opts mm) st).models = st.models ∧
    (groups.foldl (bakeOne opts mm) st).decals = st.decals ∧
    (groups.foldl (bakeOne opts mm) st).mergedMesh = st.mergedMesh := by
  induction groups generalizing st with
  | nil => exact ⟨rfl, rfl, rfl⟩
  | cons g rest ih =>
    simp only [List.foldl_cons]
    have h1 := bakeOne_stores opts mm st g
    have h2 := ih (bakeOne opts mm st g)
    exact ⟨h2.1.trans h1.1, h2.2.1.trans h1.2.1, h2.2.2.trans h1.2.2⟩

theorem bakeOne_nil_mm (opts : MergeOptionsM) (st : MergerState)
    (g : ℕ × List DecalInstance) : bakeOne opts [] st g = st := rfl

theorem foldl_bakeOne_nil_mm (opts : MergeOptionsM)
    (groups : List (ℕ × List DecalInstance)) (st : MergerState) :
    groups.foldl (bakeOne opts []) st = st := by
  induction groups generalizing st with
  | nil => rfl
  | cons g rest ih => simp only [List.foldl_cons, bakeOne_nil_mm, ih]

theorem bakeStage_stores (opts : MergeOptionsM) (st : MergerState) :
    (bakeStage opts st).models = st.models ∧
    (bakeStage opts st).decals = st.decals ∧
    (bakeStage opts st).mergedMesh = st.mergedMesh := by
  unfold bakeStage
  dsimp only
  split
  · exact ⟨rfl, rfl, rfl⟩
  · exact foldl_bakeOne_stores _ _ _ _

theorem geometryMergerMerge_noMeshes (scenes : List Scene) (transforms : List TransformM)
    (h : ∀ s ∈ scenes, s.meshes = []) :
    geometryMergerMerge scenes transforms = .error "No meshes found in scenes" := by
  unfold geometryMergerMerge
  dsimp only
  have hnil : ((scenes.zip transforms).map fun st =>
      st.1.meshes.map (transformedGeometry st.2)).flatten = [] := by
    apply List.join_eq_nil_iff.mpr
    intro l hl
    obtain ⟨st, hst, rfl⟩ := List.mem_map.mp hl
    have hmem : st.1 ∈ scenes := (List.mem_zip hst).1
    rw [h st.1 hmem]
    rfl
  have hacc := pairs_foldl_geometries (scenes.zip transforms) ⟨[], [], [], 0⟩
  rw [hnil] at hacc
  simp only [List.nil_append] at hacc
  rw [hacc]
  rfl

/-- C5: merge with zero meshes across all registered assets (including
zero registered models) fails with a fatal no-geometry error and leaves
the model store, the decal store, the material objects and the texture
objects untouched. -/
theorem c5_merge_no_geometry (opts : MergeOptionsM) (st : MergerState)
    (h : (st.models.map fun p => p.2.scene.meshes.length).sum = 0) :
    ∃ e, (mergeRun opts st).2 = .error e ∧
      (e = MergeError.noModels ∨ e = MergeError.noMeshes) ∧
      (mergeRun opts st).1.models = st.models ∧
      (mergeRun opts st).1.decals = st.decals ∧
      (mergeRun opts st).1.matHeap = st.matHeap ∧
      (mergeRun opts st).1.tex = st.tex := by
  by_cases hempty : st.models.isEmpty = true
  · refine ⟨.noModels, ?_, Or.inl rfl, ?_, ?_, ?_, ?_⟩ <;>
      simp [mergeRun, hempty]
  · have hAllEmpty : ∀ p ∈ st.models, p.2.scene.meshes = [] := by
      intro p hp
      rw [List.sum_eq_zero_iff] at h
      have hzero : p.2.scene.meshes.length = 0 :=
        h _ (List.mem_map_of_mem (fun q => q.2.scene.meshes.length) hp)
      exact List.length_eq_zero.mp hzero
    have hmm : collectModelMeshInfos (st.models.map (·.2)) = [] := by
      unfold collectModelMeshInfos
      apply List.filterMap_eq_nil_iff.mpr
      intro model hmodel
      obtain ⟨p, hp, rfl⟩ := List.mem_map.mp hmodel
      rw [hAllEmpty p hp]
      rfl
    have hst1 : bakeStage opts st = st := by
      unfold bakeStage
      dsimp only
      rw [hmm]
      split
      · rfl
      · exact foldl_bakeOne_nil_mm _ _ _
    have hgm : geometryMergerMerge ((st.models.map (·.2)).map (·.scene))
        ((st.models.map (·.2)).map (·.transform)) = .error "No meshes found in scenes" := by
      apply geometryMergerMerge_noMeshes
      intro s hs
      rw [List.map_map] at hs
      obtain ⟨p, hp, rfl⟩ := List.mem_map.mp hs
      exact hAllEmpty p hp
    refine ⟨.noMeshes, ?_, Or.inr rfl, ?_, ?_, ?_, ?_⟩ <;>
      · unfold mergeRun
        rw [if_neg (by simpa using hempty)]
        dsimp only
        rw [hgm, hst1]
        try rfl

theorem geometryMergerMerge_ok (scenes : List Scene) (transforms : List TransformM)
    (hlen : transforms.length = scenes.length)
    (hmesh : 1 ≤ (scenes.map fun s => s.meshes.length).sum) :
    ∃ r, geometryMergerMerge scenes transforms = .ok r := by
  have hfst : (scenes.zip transforms).map Prod.fst = scenes :=
    List.map_fst_zip scenes transforms (by omega)
  set pairs := scenes.zip transforms with hpairs
  set G := (pairs.map fun st => st.1.meshes.map (transformedGeometry st.2)).flatten with hGdef
  have hGmem : ∀ g ∈ G, ∃ st ∈ pairs, ∃ m ∈ st.1.meshes, g = transformedGeometry st.2 m := by
    intro g hg
    obtain ⟨l, hl, hgl⟩ := List.mem_flatten.mp hg
    obtain ⟨st, hst, rfl⟩ := List.mem_map.mp hl
    obtain ⟨m, hm, rfl⟩ := List.mem_map.mp hgl
    exact ⟨st, hst, m, hm, rfl⟩
  have hGlen : G.length = (scenes.map fun s => s.meshes.length).sum := by
    rw [hGdef, List.length_flatten, List.map_map]
    have hfun : ((fun l : List Geometry => l.length) ∘ fun st : Scene × TransformM =>
        st.1.meshes.map (transformedGeometry st.2)) =
        (fun s : Scene => s.meshes.length) ∘ Prod.fst := by
      funext st
      simp
    rw [hfun, ← List.map_map, hfst]
  have hGne : G.isEmpty = false := by
    rw [List.isEmpty_eq_false_iff_exists_mem]
    have hpos : 0 < G.length := by omega
    exact List.exists_mem_of_length_pos hpos
  set NG := normalizeGeometryAttributes G with hNG
  have hNGisEmpty : NG.isEmpty = false := by
    rw [hNG]
    unfold normalizeGeometryAttributes
    cases hG : G with
    | nil => rw [hG] at hGne; simp at hGne
    | cons a l => simp
  have hcond : (NG.all fun g => g.normals.isSome && g.uvs.isSome && g.index.isNone) = true := by
    rw [List.all_eq_true]
    intro g hg
    rw [hNG] at hg
    unfold normalizeGeometryAttributes at hg
    obtain ⟨g0, hg0, rfl⟩ := List.mem_map.mp hg
    obtain ⟨st, hst, m, hm, rfl⟩ := hGmem g0 hg0
    have hf := normalized_geometry_fields (transformedGeometry st.2 m)
    rw [Bool.and_eq_true, Bool.and_eq_true]
    refine ⟨⟨hf.2.1, hf.2.2.1⟩, ?_⟩
    rw [hf.2.2.2, transformedGeometry_index]
    rfl
  have hmerge : mergeGeometries NG =
      some { positions := (NG.map (·.positions)).flatten
             normals := some ((NG.map fun g => g.normals.getD []).flatten)
             uvs := some ((NG.map fun g => g.uvs.getD []).flatten)
             index := none } := by
    unfold mergeGeometries
    rw [hNGisEmpty, hcond]
    simp
  simp only [geometryMergerMerge]
  rw [← hpairs]
  have haccg : (pairs.foldl (fun acc st => st.1.meshes.foldl (processMesh st.2) acc)
      (⟨[], [], [], 0⟩ : MergeAcc)).geometries = G := by
    rw [pairs_foldl_geometries]
    simp [hGdef]
  rw [haccg, hGne]
  simp only [Bool.false_eq_true, if_false]
  rw [← hNG, hmerge]
  exact ⟨_, rfl⟩

theorem bakeOne_tex_heap (opts : MergeOptionsM) (mm : List (ℕ × (Mesh × ℕ)))
    (st : MergerState) (g : ℕ × List DecalInstance) :
    ∃ extra, (bakeOne opts mm st g).tex.heap = st.tex.heap ++ extra := by
  unfold bakeOne
  repeat (first | (refine ⟨[], ?_⟩; exact (List.append_nil _).symm) | exact ⟨_, rfl⟩ | split | dsimp only)

theorem foldl_bakeOne_tex_heap (opts : MergeOptionsM) (mm : List (ℕ × (Mesh × ℕ)))
    (groups : List (ℕ × List DecalInstance)) (st : MergerState) :
    ∃ extra, (groups.foldl (bakeOne opts mm) st).tex.heap = st.tex.heap ++ extra := by
  induction groups generalizing st with
  | nil => exact ⟨[], by simp⟩
  | cons g rest ih =>
    simp only [List.foldl_cons]
    obtain ⟨e1, he1⟩ := bakeOne_tex_heap opts mm st g
    obtain ⟨e2, he2⟩ := ih (bakeOne opts mm st g)
    exact ⟨e1 ++ e2, by rw [he2, he1, List.append_assoc]⟩

theorem bakeStage_tex_heap (opts : MergeOptionsM) (st : MergerState) :
    ∃ extra, (bakeStage opts st).tex.heap = st.tex.heap ++ extra := by
  unfold bakeStage
  dsimp only
  split
  · exact ⟨[], by simp⟩
  · exact foldl_bakeOne_tex_heap _ _ _ _

theorem foldl_extractAlbedoStep_tex_heap (matHeap : List (ℕ × MaterialRec))
    (ids : List ℕ) (accPair : List ℕ × TexStore) :
    ∃ extra, (ids.foldl (extractAlbedoStep matHeap) accPair).2.heap =
      accPair.2.heap ++ extra := by
  induction ids generalizing accPair with
  | nil => exact ⟨[], (List.append_nil _).symm⟩
  | cons m rest ih =>
    simp only [List.foldl_cons]
    obtain ⟨e, he⟩ := ih (extractAlbedoStep matHeap accPair m)
    have hstep : ∃ e0, (extractAlbedoStep matHeap accPair m).2.heap =
        accPair.2.heap ++ e0 := by
      unfold extractAlbedoStep
      repeat (first | (refine ⟨[], ?_⟩; exact (List.append_nil _).symm) |
        exact ⟨_, rfl⟩ | split | dsimp only)
    obtain ⟨e0, he0⟩ := hstep
    exact ⟨e0 ++ e, by rw [he, he0, List.append_assoc]⟩

theorem extractAlbedo_tex_heap (matHeap : List (ℕ × MaterialRec)) (ts : TexStore)
    (ids : List ℕ) :
    ∃ extra, (extractAlbedo matHeap ts ids).2.heap = ts.heap ++ extra :=
  foldl_extractAlbedoStep_tex_heap matHeap ids ([], ts)

theorem atlasGenerate_tex_heap (matHeap : List (ℕ × MaterialRec)) (ts : TexStore)
    (materialIds : List ℕ) (materialMapping : List (ℕ × List ℕ)) (geometry : Geometry)
    (atlasSize : ℕ) (overrides : Option MaterialOverrides) :
    ∃ extra, (atlasGenerate matHeap ts materialIds materialMapping geometry
      atlasSize overrides).2.2.heap = ts.heap ++ extra := by
  obtain ⟨e1, he1⟩ := extractAlbedo_tex_heap matHeap ts materialIds
  unfold atlasGenerate
  dsimp only
  simp only [TexStore.alloc]
  exact ⟨e1 ++ [((extractAlbedo matHeap ts materialIds).2.next,
      createAtlasImage atlasSize (extractAlbedo matHeap ts materialIds).1
        (generatePackingLayout
          ((extractAlbedo matHeap ts materialIds).1.map
            (imageSize (extractAlbedo matHeap ts materialIds).2.heap))
          (atlasSize : ℚ)))],
    by rw [he1, List.append_assoc]⟩

theorem bakeStage_empty_models (opts : MergeOptionsM) (st : MergerState)
    (h : st.models = []) : bakeStage opts st = st := by
  unfold bakeStage collectModelMeshInfos
  rw [h]
  dsimp only
  split
  · rfl
  · exact foldl_bakeOne_nil_mm _ _ _

theorem mergeRun_tex_heap (opts : MergeOptionsM) (st : MergerState) :
    ∃ extra, (mergeRun opts st).1.tex.heap = st.tex.heap ++ extra := by
  unfold mergeRun
  split
  · exact ⟨[], by simp⟩
  · dsimp only
    obtain ⟨e1, he1⟩ := bakeStage_tex_heap opts st
    cases hres : geometryMergerMerge ((st.models.map (·.2)).map (·.scene))
        ((st.models.map (·.2)).map (·.transform)) with
    | error e => exact ⟨e1, he1⟩
    | ok res =>
      obtain ⟨e2, he2⟩ := atlasGenerate_tex_heap (bakeStage opts st).matHeap
        (bakeStage opts st).tex res.materials res.materialMapping res.geometry
        (opts.atlasSize.getD 2048) opts.materialOverrides
      exact ⟨e1 ++ e2, by rw [he2, he1, List.append_assoc]⟩

theorem mergeRun_matHeap_persists (opts : MergeOptionsM) (st : MergerState) :
    (mergeRun opts st).1.matHeap = (bakeStage opts st).matHeap := by
  unfold mergeRun
  split
  · rename_i hempty
    rw [bakeStage_empty_models opts st (List.isEmpty_iff.mp hempty)]
  · dsimp only
    cases hres : geometryMergerMerge ((st.models.map (·.2)).map (·.scene))
        ((st.models.map (·.2)).map (·.transform)) with
    | error e => rfl
    | ok res => rfl

/-- C9 (amended): the decal-bake step of merge creates a fresh texture
object holding the baked image and swaps the target material's albedo
texture reference (`map`) to it; the original texture objects are never
mutated (every pre-existing texture-store entry survives any merge
unchanged, at its id); and the swap is permanent — `merge` never restores
the material store after the bake stage, so after a completed merge the
asset's material still points at the baked texture. -/
theorem c9_bake_swaps_permanently (opts : MergeOptionsM) (st : MergerState)
    (mm : List (ℕ × (Mesh × ℕ))) (g : ℕ × List DecalInstance)
    (mesh : Mesh) (matId : ℕ) (mat : MaterialRec) (tid : ℕ) (img : Image)
    (hmm : mapGet mm g.1 = some (mesh, matId))
    (hmat : mapGet st.matHeap matId = some mat)
    (hmap : mat.map = some tid)
    (himg : mapGet st.tex.heap tid = some img)
    (hwf : st.tex.wf) :
    (∃ baked, bakeDecalsToModelTexture st.tex.heap mat g.2
        (some (match opts.atlasSize with
               | some n => if n = 0 then 2048 else n
               | none => 2048)) = some baked ∧
      (bakeOne opts mm st g).tex.heap = st.tex.heap ++ [(st.tex.next, baked)] ∧
      mapGet (bakeOne opts mm st g).matHeap matId =
        some { mat with map := some st.tex.next } ∧
      st.tex.next ∉ st.tex.heap.map (·.1)) ∧
    (∃ extra, (mergeRun opts st).1.tex.heap = st.tex.heap ++ extra) ∧
    (mergeRun opts st).1.matHeap = (bakeStage opts st).matHeap := by
  refine ⟨?_, mergeRun_tex_heap opts st, mergeRun_matHeap_persists opts st⟩
  have hbake : ∃ baked, bakeDecalsToModelTexture st.tex.heap mat g.2
      (some (match opts.atlasSize with
             | some n => if n = 0 then 2048 else n
             | none => 2048)) = some baked := by
    unfold bakeDecalsToModelTexture
    rw [hmap]
    dsimp only
    rw [himg]
    exact ⟨_, rfl⟩
  obtain ⟨baked, hbaked⟩ := hbake
  refine ⟨baked, hbaked, ?_, ?_, ?_⟩
  · unfold bakeOne
    rw [hmm]
    dsimp only
    rw [hmat]
    simp only [Option.getD_some]
    rw [hmap]
    dsimp only
    rw [hbaked]
    dsimp only [TexStore.alloc]
  · unfold bakeOne
    rw [hmm]
    dsimp only
    rw [hmat]
    simp only [Option.getD_some]
    rw [hmap]
    dsimp only
    rw [hbaked]
    dsimp only
    rw [mapGet_mapModify, hmat]
    rfl
  · intro hcontra
    obtain ⟨p, hp, hpeq⟩ := List.mem_map.mp hcontra
    have := hwf p hp
    omega

/-- Witness for C5: a registered model with a meshless scene makes merge
fail with the no-meshes error and leaves every store untouched. -/
theorem c5_merge_no_geometry_witness :
    ∃ e, (mergeRun exOpts exNoMeshState).2 = .error e ∧
      (e = MergeError.noModels ∨ e = MergeError.noMeshes) ∧
      (mergeRun exOpts exNoMeshState).1.models = exNoMeshState.models ∧
      (mergeRun exOpts exNoMeshState).1.decals = exNoMeshState.decals ∧
      (mergeRun exOpts exNoMeshState).1.matHeap = exNoMeshState.matHeap ∧
      (mergeRun exOpts exNoMeshState).1.tex = exNoMeshState.tex :=
  c5_merge_no_geometry exOpts exNoMeshState (by simp [exNoMeshState])

/-- Witness for the amended C9 theorem on the concrete one-model,
one-decal state. -/
theorem c9_bake_swaps_permanently_witness :
    (∃ baked, bakeDecalsToModelTexture exBakeState.tex.heap exBaseMat
        ((0, [exDecal9]) : ℕ × List DecalInstance).2
        (some (match exOpts.atlasSize with
               | some n => if n = 0 then 2048 else n
               | none => 2048)) = some baked ∧
      (bakeOne exOpts [(0, (processedBakeMesh exMeshA, 0))] exBakeState (0, [exDecal9])).tex.heap =
        exBakeState.tex.heap ++ [(exBakeState.tex.next, baked)] ∧
      mapGet (bakeOne exOpts [(0, (processedBakeMesh exMeshA, 0))] exBakeState
        (0, [exDecal9])).matHeap 0 =
        some { exBaseMat with map := some exBakeState.tex.next } ∧
      exBakeState.tex.next ∉ exBakeState.tex.heap.map (·.1)) ∧
    (∃ extra, (mergeRun exOpts exBakeState).1.tex.heap = exBakeState.tex.heap ++ extra) ∧
    (mergeRun exOpts exBakeState).1.matHeap = (bakeStage exOpts exBakeState).matHeap :=
  c9_bake_swaps_permanently exOpts exBakeState [(0, (processedBakeMesh exMeshA, 0))]
    (0, [exDecal9]) (processedBakeMesh exMeshA) 0 exBaseMat 0 ⟨2, 2, .sourcePic 0⟩
    rfl rfl rfl rfl
    (by
      intro p hp
      rcases List.mem_cons.mp hp with rfl | hp
      · norm_num [exBakeState]
      · rcases List.mem_singleton.mp hp with rfl
        norm_num [exBakeState])

/-- C9 as stated is false on the code: the merge completes, yet the
asset's material still references the baked texture (id `2`), not its
original texture (id `0`) — the swap is not undone when the merge
operation ends. -/
theorem c9_counterexample_swap_not_restored :
    (mergeRun exOpts exBakeState).2 = .ok () ∧
    ((mergeRun exOpts exBakeState).1.matHeap.map fun p => (p.1, p.2.map)) = [(0, some 2)] ∧
    (exBakeState.matHeap.map fun p => (p.1, p.2.map)) = [(0, some 0)] := by
  have hstage : (bakeStage exOpts exBakeState).matHeap =
      [(0, { exBaseMat with map := some 2 })] := rfl
  refine ⟨?_, ?_, rfl⟩
  · obtain ⟨res, hres⟩ := geometryMergerMerge_ok
      ((exBakeState.models.map (·.2)).map (·.scene))
      ((exBakeState.models.map (·.2)).map (·.transform))
      rfl (by simp [exBakeState, exModel])
    unfold mergeRun
    rw [if_neg (by simp [exBakeState])]
    dsimp only
    rw [hres]
  · rw [mergeRun_matHeap_persists, hstage]
    rfl
